import Mathlib

/-!
Shallow embedding of the traffic-flow simulation engine of the
cloud-simulator repository (src/game/MainScene.ts, src/types.ts,
src/constants.ts).  Numbers that are f64 in the source are modelled as
exact rationals; the stochastic draws (Math.random) are threaded in as
explicit parameters.  Visual-only side effects (particles, labels,
event log) are omitted.
-/

namespace CloudSim

/-- Request kinds, from RequestType in src/types.ts. -/
inductive RequestKind
  | web
  | dbRead
  | dbWrite
  | dbSearch
  | stat
  | atk
deriving DecidableEq, Repr

/-- Node kinds, from NodeType in src/types.ts plus AUTOSCALING_GROUP used by
src/game/MainScene.ts. -/
inductive NodeKind
  | internet
  | waf
  | firewall
  | loadBalancer
  | apiGateway
  | cdn
  | compute
  | database
  | databaseNoSql
  | storage
  | cache
  | autoscalingGroup
deriving DecidableEq, Repr

/-- Node status, from NodeData.status in src/types.ts. -/
inductive NodeStatus
  | active
  | down
  | booting
deriving DecidableEq, Repr

/-- SQL database role, from DbRole in src/types.ts. -/
inductive DbRole
  | primary
  | replica
deriving DecidableEq, Repr

/-- Compute tiers, from ComputeTier in src/types.ts. -/
inductive ComputeTier
  | t1
  | t2
  | t3
  | t4
  | t5
deriving DecidableEq, Repr

/-- CDN tiers, from CdnTier in src/types.ts. -/
inductive CdnTier
  | edgeBasic
  | edgePro
  | edgeEnterprise
deriving DecidableEq, Repr

/-- Load balancing algorithms, from LoadBalancerAlgo in src/types.ts. -/
inductive LBAlgo
  | roundRobin
  | weightedRoundRobin
  | random
  | leastConnection
  | weightedLeastConnection
  | leastResponseTime
deriving DecidableEq, Repr

/-- A per-node traffic mix buffer: volume per request kind
(the TrafficMix record of src/game/MainScene.ts). -/
structure Mix where
  web : ℚ
  dbRead : ℚ
  dbWrite : ℚ
  dbSearch : ℚ
  stat : ℚ
  atk : ℚ
deriving DecidableEq, Repr

/-- The all-zero traffic mix. -/
def Mix.zero : Mix := ⟨0, 0, 0, 0, 0, 0⟩

instance : Add Mix := ⟨fun a b => ⟨a.web + b.web, a.dbRead + b.dbRead,
  a.dbWrite + b.dbWrite, a.dbSearch + b.dbSearch, a.stat + b.stat, a.atk + b.atk⟩⟩

/-- Total volume of a mix (all six request kinds). -/
def Mix.total (m : Mix) : ℚ :=
  m.web + m.dbRead + m.dbWrite + m.dbSearch + m.stat + m.atk

/-- Legitimate (non-attack) volume of a mix. -/
def Mix.legit (m : Mix) : ℚ :=
  m.web + m.dbRead + m.dbWrite + m.dbSearch + m.stat

/-- Scale every component of a mix by a factor. -/
def Mix.scale (r : ℚ) (m : Mix) : Mix :=
  ⟨m.web * r, m.dbRead * r, m.dbWrite * r, m.dbSearch * r, m.stat * r, m.atk * r⟩

/-- Node record: the engine-relevant fields of NodeData (src/types.ts)
together with the node's two traffic buffers, which MainScene keeps in
the simBufferCurrent / simBufferNext maps keyed by node id. -/
structure Node where
  id : ℕ
  kind : NodeKind
  status : NodeStatus
  tier : Option ComputeTier
  cdnTier : Option CdnTier
  dbRole : Option DbRole
  algorithm : Option LBAlgo
  az : ℕ
  currentLoad : ℚ
  loadHistory : List ℚ
  processedReqs : ℚ
  droppedReqs : ℚ
  cacheHitRate : ℚ
  totalServed : ℚ
  invalidationPressure : ℚ
  hasStorageConnection : Bool
  currentInstances : ℕ
  minInstances : ℕ
  maxInstances : ℕ
  scalingCooldown : ℚ
  bufCur : Mix
  bufNext : Mix
deriving DecidableEq, Repr

/-- Response-code counters (metrics.responseCodes). -/
structure Codes where
  c200 : ℚ
  c403 : ℚ
  c429 : ℚ
  c500 : ℚ
  c503 : ℚ
deriving DecidableEq, Repr

def Codes.zero : Codes := ⟨0, 0, 0, 0, 0⟩

/-- Per-request-kind success/failure accumulators
(the bWebSuc, bWebFail, ... locals of runTrafficSimulation). -/
structure Tallies where
  webSuc : ℚ
  webFail : ℚ
  dbReadSuc : ℚ
  dbReadFail : ℚ
  dbWriteSuc : ℚ
  dbWriteFail : ℚ
  dbSearchSuc : ℚ
  dbSearchFail : ℚ
  statSuc : ℚ
  statFail : ℚ
  atkSuc : ℚ
  atkFail : ℚ
deriving DecidableEq, Repr

def Tallies.zero : Tallies := ⟨0, 0, 0, 0, 0, 0, 0, 0, 0, 0, 0, 0⟩

/-- Add a whole mix to the per-kind failure counters (the repeated
"bWebFail += ...; bDbReadFail += ...; ..." pattern). -/
def Tallies.addFail (t : Tallies) (m : Mix) : Tallies :=
  { t with
    webFail := t.webFail + m.web
    dbReadFail := t.dbReadFail + m.dbRead
    dbWriteFail := t.dbWriteFail + m.dbWrite
    dbSearchFail := t.dbSearchFail + m.dbSearch
    statFail := t.statFail + m.stat
    atkFail := t.atkFail + m.atk }

/-- COMPUTE_TIERS capacity column (src/constants.ts). -/
def computeCapacity : ComputeTier → ℚ
  | .t1 => 100
  | .t2 => 500
  | .t3 => 2500
  | .t4 => 10000
  | .t5 => 50000

/-- COMPUTE_TIERS capex column (src/constants.ts). -/
def computeCapex : ComputeTier → ℚ
  | .t1 => 50
  | .t2 => 150
  | .t3 => 400
  | .t4 => 1200
  | .t5 => 5000

/-- CDN_TIERS capacity column (src/constants.ts). -/
def cdnCapacity : CdnTier → ℚ
  | .edgeBasic => 5000
  | .edgePro => 25000
  | .edgeEnterprise => 100000

/-- CDN_TIERS maxHitRate column (src/constants.ts). -/
def cdnMaxHitRate : CdnTier → ℚ
  | .edgeBasic => 3/4
  | .edgePro => 9/10
  | .edgeEnterprise => 99/100

/-- NODE_COSTS (src/constants.ts). -/
def nodeCost : NodeKind → ℚ
  | .internet => 0
  | .cdn => 200
  | .waf => 250
  | .firewall => 100
  | .loadBalancer => 150
  | .apiGateway => 300
  | .compute => 50
  | .database => 500
  | .databaseNoSql => 800
  | .storage => 200
  | .cache => 150
  | .autoscalingGroup => 300

/-- TRAFFIC_MIX (src/constants.ts): the fixed per-kind share of
legitimate incoming volume. -/
def trafficShare : RequestKind → ℚ
  | .web => 3/10
  | .dbRead => 35/100
  | .dbWrite => 1/10
  | .dbSearch => 1/10
  | .stat => 15/100
  | .atk => 0

/-- WRITE_LOCKING_PENALTY (src/game/MainScene.ts line 50). -/
def writeLockingPenalty : ℚ := 5

/-- CDN_WARMUP_CONSTANT (src/constants.ts). -/
def cdnWarmupConstant : ℚ := 20000

/-- CACHE_WARMUP_CONSTANT (src/constants.ts). -/
def cacheWarmupConstant : ℚ := 5000

/-- CACHE_WRITE_PENALTY (src/constants.ts). -/
def cacheWritePenalty : ℚ := 5/1000

/-- CROSS_AZ_LATENCY (src/constants.ts). -/
def crossAzLatency : ℚ := 2

/-- The mutable state threaded through one settlement pass: the node
table (with both traffic buffers inside each node), the directed edge
list, the response-code counters, the per-kind tallies, the latency
aggregation variables and the per-round trafficMoved flag of
runTrafficSimulation. -/
structure SimState where
  nodes : List Node
  edges : List (ℕ × ℕ)
  codes : Codes
  tallies : Tallies
  latAcc : ℚ
  latCount : ℕ
  maxLoadFactor : ℚ
  trafficMoved : Bool
deriving DecidableEq, Repr

/-- Immutable per-tick inputs: the unlocked-technology flag consulted by
the security filter and the Math.random draws of the Random load
balancer, indexed by (node id, position of the child in the target
list).  Each draw lies in [0, 1). -/
structure Ctx where
  hasShield : Bool
  jitter : ℕ → ℕ → ℚ

/-- adjacencyMap lookup: children of a node (targets of its outgoing
edges, in edge-list order). -/
def childrenOf (edges : List (ℕ × ℕ)) (id : ℕ) : List ℕ :=
  (edges.filter (fun e => e.1 == id)).map (fun e => e.2)

/-- nodeDataMap lookup by id. -/
def findNode (nodes : List Node) (id : ℕ) : Option Node :=
  nodes.find? (fun n => n.id == id)

/-- Point update of the node table at an id (in the scene, node ids are
unique keys of nodeDataMap; theorems that need uniqueness carry a Nodup
hypothesis). -/
def updateNode (nodes : List Node) (id : ℕ) (f : Node → Node) : List Node :=
  nodes.map (fun n => if n.id == id then f n else n)

/-- Add a mix to a node's next-round buffer (the
"simBufferNext.get(id)[kind] += v" writes; a missing id is a silent
no-op, like the "if (next)" guard in the source). -/
def addNext (nodes : List Node) (id : ℕ) (d : Mix) : List Node :=
  updateNode nodes id (fun n => { n with bufNext := n.bufNext + d })

/-- Apply a batch of next-buffer additions in order. -/
def forwardAll (nodes : List Node) (l : List (ℕ × Mix)) : List Node :=
  l.foldl (fun ns t => addNext ns t.1 t.2) nodes

/-- Attack attenuation factor of the security filter
(src/game/MainScene.ts lines 1232-1236). -/
def attenuationFactor (hasShield : Bool) : NodeKind → ℚ
  | .firewall => if hasShield then 1/20 else 1/5
  | .waf => if hasShield then 1/10000 else 1/1000
  | _ => 1

/-- The node's current buffer after the security filter multiplied its
attack component (lines 1229-1236). -/
def mixAfterSecurity (hasShield : Bool) (n : Node) : Mix :=
  { n.bufCur with atk := n.bufCur.atk * attenuationFactor hasShield n.kind }

/-- Autoscaling-group hysteresis (lines 1254-1264): scale up above 85%
load, down below 30%, both gated by a 15s cooldown. -/
def asgScaled (n : Node) : Node :=
  if n.scalingCooldown ≤ 0 then
    if 85 < n.currentLoad ∧ n.currentInstances < n.maxInstances then
      { n with currentInstances := n.currentInstances + 1, scalingCooldown := 15000 }
    else if n.currentLoad < 30 ∧ n.minInstances < n.currentInstances then
      { n with currentInstances := n.currentInstances - 1, scalingCooldown := 15000 }
    else n
  else n

/-- Capacity ceiling by node kind and tier (lines 1247-1279).  For an
autoscaling group the base tier capacity is multiplied by the current
instance count (a zero count falls back to 1, like "instances || 1"). -/
def capacityOf (n : Node) : ℚ :=
  if n.kind = .compute ∧ n.tier ≠ none then
    computeCapacity (n.tier.getD .t1)
  else if n.kind = .autoscalingGroup ∧ n.tier ≠ none then
    computeCapacity (n.tier.getD .t1) *
      (if n.currentInstances = 0 then 1 else (n.currentInstances : ℚ))
  else if n.kind = .cdn ∧ n.cdnTier ≠ none then
    cdnCapacity (n.cdnTier.getD .edgeBasic)
  else if n.kind = .waf then 50000
  else if n.kind = .firewall then 200000
  else if n.kind = .loadBalancer then 100000
  else if n.kind = .cache then 20000
  else if n.kind = .database then
    (if n.dbRole = some .primary then 3000 else 5000)
  else if n.kind = .databaseNoSql then 15000
  else 999999

/-- The node after the in-pass autoscaling mutation (only an
autoscaling group with a tier is touched, line 1250). -/
def scaledNode (n : Node) : Node :=
  if n.kind = .autoscalingGroup ∧ n.tier ≠ none then asgScaled n else n

/-- Capacity actually used for the admission ratio: the capacity of the
node after autoscaling. -/
def effCapacity (n : Node) : ℚ := capacityOf (scaledNode n)

/-- Weighted input (lines 1281-1290): writes on a primary SQL database
count five-fold, attack volume counts ten-fold outside security nodes. -/
def weightedInputOf (n : Node) (m : Mix) : ℚ :=
  let attackWeight : ℚ := if n.kind = .firewall ∨ n.kind = .waf then 1 else 10
  let effWrite :=
    if n.kind = .database ∧ n.dbRole = some .primary then
      m.dbWrite * writeLockingPenalty
    else m.dbWrite
  (m.total - m.atk - m.dbWrite) + effWrite + m.atk * attackWeight

/-- Admission ratio (line 1292): min(1, capacity/weightedInput) when the
capacity is positive, else 0.  A zero weighted input gives ratio 1 (in
the source capacity/0 is +Infinity and min(1, Infinity) = 1). -/
def admitRatio (hasShield : Bool) (n : Node) : ℚ :=
  let wi := weightedInputOf n (mixAfterSecurity hasShield n)
  if 0 < effCapacity n then
    (if wi = 0 then 1 else min 1 (effCapacity n / wi))
  else 0

/-- The load written back to the node (line 1300): 100 when saturated,
else weightedInput/capacity percent. -/
def newLoadOf (hasShield : Bool) (n : Node) : ℚ :=
  if admitRatio hasShield n < 1 then 100
  else weightedInputOf n (mixAfterSecurity hasShield n) / effCapacity n * 100

/-- The heuristic latency curve (line 1305) as a function of the load
percentage. -/
def latencyOf (load : ℚ) : ℚ :=
  let lf := min (99/100) (load / 100)
  5 + 20 * lf + (if 85/100 < lf then (lf * 10 - 85/10) ^ 3 * 10 else 0)

/-- Load-balancing weight of one healthy child (lines 1557-1601). -/
def lbWeight (algo : LBAlgo) (c : Node) : ℚ :=
  match algo with
  | .random => 1
  | .roundRobin => 1
  | .weightedRoundRobin =>
      match c.tier with
      | some t => computeCapacity t
      | none => 100
  | .leastConnection => (max 1 (100 - c.currentLoad)) ^ 2
  | .weightedLeastConnection =>
      (match c.tier with
       | some t => computeCapacity t
       | none => 100) * max (1/100) ((100 - c.currentLoad) / 100)
  | .leastResponseTime =>
      let lf := c.currentLoad / 100
      let lat := 5 + 20 * lf + (if 85/100 < lf then (lf * 10 - 85/10) ^ 3 * 10 else 0)
      1000 / max 1 lat

/-- Whether a child id refers to a node of the given kind
(the "nodeDataMap.get(tid)?.type === ..." tests). -/
def childIsKind (nodes : List Node) (k : NodeKind) (tid : ℕ) : Bool :=
  match findNode nodes tid with
  | some c => c.kind == k
  | none => false

/-- Whether a child id refers to a SQL database with the given role. -/
def childIsSql (nodes : List Node) (r : DbRole) (tid : ℕ) : Bool :=
  match findNode nodes tid with
  | some c => c.kind == .database && c.dbRole == some r
  | none => false

/-- CDN routing (lines 1338-1377): without a Storage child everything
admitted becomes 503; otherwise attack forwards to the storage, dynamic
kinds fail, and static splits into immediate hits and forwarded misses
by the warmup hit-rate curve. -/
def routeCdn (st : SimState) (node : Node)
    (web dbRead dbWrite dbSearch stat atk : ℚ) : SimState :=
  let childIds := childrenOf st.edges node.id
  match childIds.find? (childIsKind st.nodes .storage) with
  | none =>
      let droppedTraffic := stat + web + dbRead + dbWrite + dbSearch + atk
      { st with
        nodes := (updateNode st.nodes node.id
          (fun n => { n with hasStorageConnection := false }))
        codes := { st.codes with c503 := st.codes.c503 + droppedTraffic }
        tallies := st.tallies.addFail ⟨web, dbRead, dbWrite, dbSearch, stat, atk⟩ }
  | some sid =>
      let st := { st with
        nodes := (updateNode st.nodes node.id
          (fun n => { n with hasStorageConnection := true })) }
      let st := { st with nodes := addNext st.nodes sid ⟨0, 0, 0, 0, 0, atk⟩ }
      let st := { st with
        tallies := st.tallies.addFail ⟨web, dbRead, dbWrite, dbSearch, 0, 0⟩ }
      if 0 < stat then
        let maxRate := cdnMaxHitRate (node.cdnTier.getD .edgeBasic)
        let newServed := node.totalServed + stat
        let rate := maxRate * (newServed / (newServed + cdnWarmupConstant))
        let hits := stat * rate
        let misses := stat * (1 - rate)
        let st := { st with
          nodes := (updateNode st.nodes node.id
            (fun n => { n with totalServed := newServed, cacheHitRate := rate }))
          tallies := { st.tallies with statSuc := st.tallies.statSuc + hits } }
        let st := { st with nodes := addNext st.nodes sid ⟨0, 0, 0, 0, misses, 0⟩ }
        match findNode st.nodes sid with
        | some t =>
            if t.az ≠ node.az then
              { st with latAcc := st.latAcc +
                  misses * crossAzLatency / (if stat = 0 then 1 else stat) }
            else st
        | none => st
      else st

/-- Attack fan-out of the compute branch (lines 1395-1406): attack is
split evenly across the data/cache children, with no effect if there
are none. -/
def computeAtk (st : SimState) (targets : List ℕ) (atk : ℚ) : SimState :=
  if 0 < atk then
    if targets ≠ [] then
      let share := (1 : ℚ) / targets.length
      { st with nodes := (forwardAll st.nodes
          (targets.map (fun tid => (tid, ⟨0, 0, 0, 0, 0, atk * share⟩)))) }
    else st
  else st

/-- DbSearch routing of the compute branch (lines 1408-1422): NoSQL
first, else the first replica, else the primary, else 503. -/
def computeSearch (st : SimState) (noSqlNode : Option ℕ) (sqlReplicas : List ℕ)
    (sqlPrimary : Option ℕ) (dbSearch : ℚ) : SimState :=
  if 0 < dbSearch then
    match noSqlNode with
    | some nid =>
        { st with nodes := addNext st.nodes nid ⟨0, 0, 0, dbSearch, 0, 0⟩ }
    | none =>
        match sqlReplicas, sqlPrimary with
        | t :: _, _ => { st with nodes := addNext st.nodes t ⟨0, 0, 0, dbSearch, 0, 0⟩ }
        | [], some p => { st with nodes := addNext st.nodes p ⟨0, 0, 0, dbSearch, 0, 0⟩ }
        | [], none =>
            { st with
              codes := { st.codes with c503 := st.codes.c503 + dbSearch }
              tallies := { st.tallies with
                dbSearchFail := st.tallies.dbSearchFail + dbSearch } }
  else st

/-- DbWrite routing of the compute branch (lines 1424-1437): requires a
primary, which also raises the attached cache invalidation pressure. -/
def computeWrite (st : SimState) (sqlPrimary cacheNode : Option ℕ)
    (dbWrite : ℚ) : SimState :=
  if 0 < dbWrite then
    match sqlPrimary with
    | some pid =>
        let st := { st with nodes := addNext st.nodes pid ⟨0, 0, dbWrite, 0, 0, 0⟩ }
        match cacheNode with
        | some cid =>
            { st with nodes := (updateNode st.nodes cid
                (fun n => { n with invalidationPressure := n.invalidationPressure + dbWrite })) }
        | none => st
    | none =>
        { st with
          codes := { st.codes with c503 := st.codes.c503 + dbWrite }
          tallies := { st.tallies with
            dbWriteFail := st.tallies.dbWriteFail + dbWrite } }
  else st

/-- DbRead routing of the compute branch (lines 1439-1465): the cache
absorbs its hit-rate share, the remainder splits across replicas (or
the primary), else 503. -/
def computeRead (st : SimState) (cacheNode : Option ℕ) (sqlReplicas : List ℕ)
    (sqlPrimary : Option ℕ) (dbRead : ℚ) : SimState :=
  if 0 < dbRead then
    let hits :=
      match cacheNode with
      | some cid => dbRead * ((findNode st.nodes cid).map (fun c => c.cacheHitRate)).getD 0
      | none => 0
    let st :=
      match cacheNode with
      | some cid =>
          let st := { st with nodes := (updateNode st.nodes cid
              (fun n => { n with totalServed := n.totalServed + dbRead })) }
          { st with nodes := addNext st.nodes cid ⟨0, hits, 0, 0, 0, 0⟩ }
      | none => st
    let remaining := dbRead - hits
    if 0 < remaining then
      let targets := if sqlReplicas ≠ [] then sqlReplicas else sqlPrimary.toList
      if targets ≠ [] then
        let share := (1 : ℚ) / targets.length
        { st with nodes := (forwardAll st.nodes
            (targets.map (fun tid => (tid, ⟨0, remaining * share, 0, 0, 0, 0⟩)))) }
      else
        { st with
          codes := { st.codes with c503 := st.codes.c503 + remaining }
          tallies := { st.tallies with
            dbReadFail := st.tallies.dbReadFail + remaining } }
    else st
  else st

/-- Static routing of the compute branch (lines 1466-1478): even split
across storage children, else 503. -/
def computeStatic (st : SimState) (storageNodes : List ℕ) (stat : ℚ) : SimState :=
  if 0 < stat then
    if storageNodes ≠ [] then
      let share := (1 : ℚ) / storageNodes.length
      { st with nodes := (forwardAll st.nodes
          (storageNodes.map (fun tid => (tid, ⟨0, 0, 0, 0, stat * share, 0⟩)))) }
    else
      { st with
        codes := { st.codes with c503 := st.codes.c503 + stat }
        tallies := { st.tallies with statFail := st.tallies.statFail + stat } }
  else st

/-- Compute routing (lines 1379-1478): Web and Attack admitted at a
compute node count as successful; DbSearch, DbWrite, DbRead and Static
are forwarded to typed children or fail with 503. -/
def routeCompute (st : SimState) (node : Node)
    (web dbRead dbWrite dbSearch stat atk : ℚ) : SimState :=
  let st := { st with tallies := { st.tallies with
    webSuc := st.tallies.webSuc + web
    atkSuc := st.tallies.atkSuc + atk } }
  let childIds := childrenOf st.edges node.id
  let cacheNode := childIds.find? (childIsKind st.nodes .cache)
  let sqlPrimary := childIds.find? (childIsSql st.nodes .primary)
  let sqlReplicas := childIds.filter (childIsSql st.nodes .replica)
  let noSqlNode := childIds.find? (childIsKind st.nodes .databaseNoSql)
  let storageNodes := childIds.filter (childIsKind st.nodes .storage)
  let st := computeAtk st
    (sqlReplicas ++ sqlPrimary.toList ++ noSqlNode.toList ++ cacheNode.toList) atk
  let st := computeSearch st noSqlNode sqlReplicas sqlPrimary dbSearch
  let st := computeWrite st sqlPrimary cacheNode dbWrite
  let st := computeRead st cacheNode sqlReplicas sqlPrimary dbRead
  computeStatic st storageNodes stat

/-- Cache routing (lines 1480-1492): DbRead and Attack succeed, every
other kind is a routing mismatch; the hit rate for the next tick is
recomputed from warmup minus invalidation pressure. -/
def routeCache (st : SimState) (node : Node)
    (web dbRead dbWrite dbSearch stat atk : ℚ) : SimState :=
  let st := { st with tallies := { st.tallies with
    dbReadSuc := st.tallies.dbReadSuc + dbRead
    atkSuc := st.tallies.atkSuc + atk
    webFail := st.tallies.webFail + web
    dbWriteFail := st.tallies.dbWriteFail + dbWrite
    statFail := st.tallies.statFail + stat
    dbSearchFail := st.tallies.dbSearchFail + dbSearch } }
  let warmFactor := node.totalServed / (node.totalServed + cacheWarmupConstant)
  let poison := min (1/2) (node.invalidationPressure * cacheWritePenalty)
  let newRate := max (1/10) (min (19/20) (warmFactor - poison))
  { st with nodes := (updateNode st.nodes node.id (fun n =>
      let n := { n with invalidationPressure := 0, cacheHitRate := newRate }
      if 0 < newRate ∧ 0 < dbRead then
        let estimated := dbRead / newRate
        if n.processedReqs < estimated then { n with processedReqs := estimated } else n
      else n)) }

/-- SQL database routing (lines 1494-1502): a replica fails all writes,
a primary succeeds on them; reads and search succeed, Web/Static are
mismatches, attack volume is absorbed as successful. -/
def routeDatabase (st : SimState) (node : Node)
    (web dbRead dbWrite dbSearch stat atk : ℚ) : SimState :=
  let t := st.tallies
  let t :=
    if node.dbRole == some .replica then
      { t with dbWriteFail := t.dbWriteFail + dbWrite, dbReadSuc := t.dbReadSuc + dbRead }
    else
      { t with dbWriteSuc := t.dbWriteSuc + dbWrite, dbReadSuc := t.dbReadSuc + dbRead }
  { st with tallies := { t with
      dbSearchSuc := t.dbSearchSuc + dbSearch
      atkSuc := t.atkSuc + atk
      webFail := t.webFail + web
      statFail := t.statFail + stat } }

/-- NoSQL routing (lines 1504-1507). -/
def routeNoSql (st : SimState) (_node : Node)
    (web dbRead dbWrite dbSearch stat atk : ℚ) : SimState :=
  { st with tallies := { st.tallies with
      dbSearchSuc := st.tallies.dbSearchSuc + dbSearch
      dbWriteSuc := st.tallies.dbWriteSuc + dbWrite
      dbReadSuc := st.tallies.dbReadSuc + dbRead
      atkSuc := st.tallies.atkSuc + atk
      webFail := st.tallies.webFail + web
      statFail := st.tallies.statFail + stat } }

/-- Storage routing (lines 1508-1511). -/
def routeStorage (st : SimState) (_node : Node)
    (web dbRead dbWrite dbSearch stat atk : ℚ) : SimState :=
  { st with tallies := { st.tallies with
      statSuc := st.tallies.statSuc + stat
      atkSuc := st.tallies.atkSuc + atk
      webFail := st.tallies.webFail + web
      dbReadFail := st.tallies.dbReadFail + dbRead
      dbWriteFail := st.tallies.dbWriteFail + dbWrite
      dbSearchFail := st.tallies.dbSearchFail + dbSearch } }

/-- Distribution of dynamic volume over weighted targets
(lines 1604-1647).  With a positive total weight each target receives
its proportional share, jittered for the Random algorithm; with total
weight zero or negative the branch does nothing (the source has no else
arm for "totalWeight > 0").  Cross-AZ targets add latency. -/
def lbStep (ctx : Ctx) (algo : LBAlgo) (node : Node)
    (totalWeight totalDynamic : ℚ) (web dbRead dbWrite dbSearch atk : ℚ)
    (s : SimState) (kt : ℕ × ℕ × ℚ) : SimState :=
  let r0 := kt.2.2 / totalWeight
  let r :=
    if algo = .random then
      max 0 (r0 + r0 * ((ctx.jitter node.id kt.1 - 1/2) * (1/2)))
    else r0
  let s := { s with nodes := (addNext s.nodes kt.2.1
      ⟨web * r, dbRead * r, dbWrite * r, dbSearch * r, 0, atk * r⟩) }
  match findNode s.nodes kt.2.1 with
  | some tn =>
      if tn.az ≠ node.az then
        { s with latAcc := s.latAcc +
            totalDynamic * r * crossAzLatency /
              (if totalDynamic = 0 then 1 else totalDynamic) }
      else s
  | none => s

def lbDistribute (ctx : Ctx) (algo : LBAlgo) (node : Node)
    (targets : List (ℕ × ℚ)) (web dbRead dbWrite dbSearch atk : ℚ)
    (st : SimState) : SimState :=
  let totalWeight := (targets.map (fun t => t.2)).sum
  let totalDynamic := web + dbRead + dbWrite + dbSearch + atk
  if 0 < totalWeight then
    targets.enum.foldl
      (lbStep ctx algo node totalWeight totalDynamic web dbRead dbWrite dbSearch atk) st
  else st

/-- Static routing of the generic branch (lines 1516-1534): CDN
children preferred, else any non-CDN child, else 503. -/
def genericStatic (st : SimState) (cdnChildren otherChildren : List ℕ)
    (stat : ℚ) : SimState :=
  if 0 < stat then
    if cdnChildren ≠ [] then
      let share := (1 : ℚ) / cdnChildren.length
      { st with nodes := (forwardAll st.nodes
          (cdnChildren.map (fun tid => (tid, ⟨0, 0, 0, 0, stat * share, 0⟩)))) }
    else if otherChildren ≠ [] then
      let share := (1 : ℚ) / otherChildren.length
      { st with nodes := (forwardAll st.nodes
          (otherChildren.map (fun tid => (tid, ⟨0, 0, 0, 0, stat * share, 0⟩)))) }
    else
      { st with
        codes := { st.codes with c503 := st.codes.c503 + stat }
        tallies := { st.tallies with statFail := st.tallies.statFail + stat } }
  else st

/-- Dynamic routing of the generic branch (lines 1536-1656): the
load-balancer distribution over healthy children, 503 when there is no
child or no healthy child. -/
def genericDynamic (ctx : Ctx) (st : SimState) (node : Node)
    (otherChildren : List ℕ) (web dbRead dbWrite dbSearch atk : ℚ) : SimState :=
  let totalDynamic := web + dbRead + dbWrite + dbSearch + atk
  if 0 < totalDynamic then
    if otherChildren ≠ [] then
      let algo := node.algorithm.getD .roundRobin
      let healthy := (otherChildren.filterMap (findNode st.nodes)).filter
        (fun c => c.status == .active)
      if healthy = [] then
        { st with
          codes := { st.codes with c503 := st.codes.c503 + totalDynamic }
          tallies := st.tallies.addFail ⟨web, dbRead, dbWrite, dbSearch, 0, atk⟩ }
      else
        lbDistribute ctx algo node (healthy.map (fun c => (c.id, lbWeight algo c)))
          web dbRead dbWrite dbSearch atk st
    else
      { st with
        codes := { st.codes with c503 := st.codes.c503 + totalDynamic }
        tallies := st.tallies.addFail ⟨web, dbRead, dbWrite, dbSearch, 0, atk⟩ }
  else st

/-- Generic router routing (lines 1512-1656): Static prefers CDN
children, else any other child, else 503; dynamic volume goes through
the load-balancer logic over healthy children, else 503. -/
def routeGeneric (ctx : Ctx) (st : SimState) (node : Node)
    (web dbRead dbWrite dbSearch stat atk : ℚ) : SimState :=
  let childIds := childrenOf st.edges node.id
  let cdnChildren := childIds.filter (childIsKind st.nodes .cdn)
  let otherChildren := childIds.filter (fun tid => !(childIsKind st.nodes .cdn tid))
  let st := genericStatic st cdnChildren otherChildren stat
  genericDynamic ctx st node otherChildren web dbRead dbWrite dbSearch atk

/-- Kind dispatch of the routing section (the if/else chain starting at
line 1338; every kind not handled specially falls to the generic router
branch). -/
def routeNode (ctx : Ctx) (st : SimState) (node : Node)
    (web dbRead dbWrite dbSearch stat atk : ℚ) : SimState :=
  match node.kind with
  | .cdn => routeCdn st node web dbRead dbWrite dbSearch stat atk
  | .compute => routeCompute st node web dbRead dbWrite dbSearch stat atk
  | .cache => routeCache st node web dbRead dbWrite dbSearch stat atk
  | .database => routeDatabase st node web dbRead dbWrite dbSearch stat atk
  | .databaseNoSql => routeNoSql st node web dbRead dbWrite dbSearch stat atk
  | .storage => routeStorage st node web dbRead dbWrite dbSearch stat atk
  | _ => routeGeneric ctx st node web dbRead dbWrite dbSearch stat atk

/-- One node's settlement step inside a round (lines 1205-1657): status
gate, security filter, negligible-input skip, autoscaling, capacity
admission, latency contribution, counter updates and routing of the
admitted volume. -/
def processNode (ctx : Ctx) (st : SimState) (node : Node) : SimState :=
  if node.status ≠ .active then
    let totalFail := node.bufCur.total
    if 1/10 < totalFail then
      { st with
        codes := { st.codes with c500 := st.codes.c500 + totalFail }
        tallies := st.tallies.addFail node.bufCur
        nodes := updateNode st.nodes node.id (fun n => { n with bufCur := Mix.zero })
        trafficMoved := true }
    else st
  else
    let mix1 := mixAfterSecurity ctx.hasShield node
    let blocked := node.bufCur.atk - mix1.atk
    let st1 := { st with
      nodes := updateNode st.nodes node.id (fun n => { n with bufCur := mix1 })
      codes :=
        if 0 < blocked then { st.codes with c403 := st.codes.c403 + blocked }
        else st.codes }
    if mix1.total ≤ 1/10 then st1
    else
      let ratio := admitRatio ctx.hasShield node
      let dropped := mix1.total * (1 - ratio)
      let newLoad := newLoadOf ctx.hasShield node
      let loadFactor := min (99/100) (newLoad / 100)
      let hist := node.loadHistory ++ [newLoad]
      let node3 := { scaledNode node with
        currentLoad := newLoad
        loadHistory := if 30 < hist.length then hist.tail else hist
        droppedReqs := node.droppedReqs + dropped
        processedReqs := node.processedReqs + mix1.total * ratio
        bufCur := mix1 }
      let st2 := { st1 with
        trafficMoved := true
        codes :=
          if 0 < dropped then { st1.codes with c429 := st1.codes.c429 + dropped }
          else st1.codes
        maxLoadFactor := max st1.maxLoadFactor loadFactor
        latAcc := if 0 < node.processedReqs then st1.latAcc + latencyOf newLoad else st1.latAcc
        latCount := if 0 < node.processedReqs then st1.latCount + 1 else st1.latCount
        nodes := updateNode st1.nodes node.id (fun _ => node3) }
      let st3 :=
        if ratio < 1 then { st2 with tallies := st2.tallies.addFail (mix1.scale (1 - ratio)) }
        else st2
      routeNode ctx st3 node3 (mix1.web * ratio) (mix1.dbRead * ratio)
        (mix1.dbWrite * ratio) (mix1.dbSearch * ratio) (mix1.stat * ratio)
        (mix1.atk * ratio)

/-- Process the node with a given id (the loop body fetches the node
record afresh, so earlier steps of the same round are visible). -/
def processStep (ctx : Ctx) (st : SimState) (id : ℕ) : SimState :=
  match findNode st.nodes id with
  | none => st
  | some node => processNode ctx st node

/-- Clear all next-round buffers (lines 1194-1201). -/
def clearNextBuffers (nodes : List Node) : List Node :=
  nodes.map (fun n => { n with bufNext := Mix.zero })

/-- One settlement round (lines 1192-1658): clear the next buffers,
reset trafficMoved, then process every node in table order. -/
def runRound (ctx : Ctx) (st : SimState) : SimState :=
  let st0 := { st with nodes := clearNextBuffers st.nodes, trafficMoved := false }
  (st0.nodes.map (fun n => n.id)).foldl (processStep ctx) st0

/-- Swap: copy every node's next buffer into its current buffer
(lines 1662-1672). -/
def swapBuffers (nodes : List Node) : List Node :=
  nodes.map (fun n => { n with bufCur := n.bufNext })

/-- The settlement loop (MAX_STEPS = 6, lines 1191-1673): run a round;
stop early when no node moved traffic, otherwise swap buffers and
continue until the round cap. -/
def runRounds (ctx : Ctx) : ℕ → SimState → SimState
  | 0, st => st
  | fuel + 1, st =>
      let st1 := runRound ctx st
      if st1.trafficMoved then
        runRounds ctx fuel { st1 with nodes := swapBuffers st1.nodes }
      else st1

/-- The externally visible scene state around one tick: node and edge
tables, economy metrics and the aggregated outputs that
runTrafficSimulation writes into this.metrics. -/
structure Scene where
  nodes : List Node
  edges : List (ℕ × ℕ)
  cash : ℚ
  techPoints : ℚ
  currentBaseTraffic : ℚ
  userSatisfaction : ℚ
  uptime : ℚ
  totalRequests : ℚ
  successfulRequests : ℚ
  failedRequests : ℚ
  latencyMs : ℤ
  p95LatencyMs : ℤ
  activeUsers : ℚ
  revenuePerSec : ℚ
  codes : Codes
  tallies : Tallies
deriving Repr

/-- Per-tick environment: technology flags, the sinusoidal daily-cycle
sample sin(time·0.2) in [-1,1], the generator noise draw in [0,1), the
Random-LB jitter draws and the attack flag. -/
structure TickParams where
  hasShield : Bool
  hasAccelerator : Bool
  daily : ℚ
  noiseDraw : ℚ
  jitter : ℕ → ℕ → ℚ
  underAttack : Bool

/-- Math.round on an exact rational: floor(x + 1/2). -/
def jsRound (x : ℚ) : ℤ := ⌊x + 1/2⌋

/-- Traffic generation (lines 1108-1134): churn by satisfaction,
dampening at large volumes, clamping, daily cycle and noise, floor, and
the 5x attack multiplier.  Returns (clamped base, totalIncoming,
attackVolume). -/
def tickTrafficVolume (p : TickParams) (sc : Scene) : ℚ × ℚ × ℚ :=
  let sat := sc.userSatisfaction
  let churn0 : ℚ :=
    if 95 < sat then 1.0015
    else if 80 < sat then 1.0005
    else if 60 < sat then 1
    else if 40 < sat then 0.9995
    else 0.99
  let churn :=
    if 50000 < sc.currentBaseTraffic then 1 + (churn0 - 1) * (1/10)
    else if 10000 < sc.currentBaseTraffic then 1 + (churn0 - 1) * (1/2)
    else churn0
  let base := max 10 (min 1000000 (sc.currentBaseTraffic * churn))
  let dailyCycle := p.daily * (base * (1/10))
  let noise := (p.noiseDraw - 1/2) * (base * (1/20))
  let t0 : ℚ := ((⌊max 10 (base + dailyCycle + noise)⌋ : ℤ) : ℚ)
  if p.underAttack then (base, t0 * 5, t0 * 4) else (base, t0, 0)

/-- Tick-start reset and ingress seeding (lines 1136-1177): counters and
current buffers cleared, legitimate volume split across Source nodes by
the fixed traffic mix, attack volume tagged as Attack. -/
def seedState (sc : Scene) (totalIncoming attackVolume : ℚ) : SimState :=
  let reset := sc.nodes.map (fun n => { n with
    processedReqs := 0
    droppedReqs := 0
    hasStorageConnection := false
    invalidationPressure := 0
    bufCur := Mix.zero })
  let internetCount := (reset.filter (fun n => n.kind == .internet)).length
  let k : ℚ := if internetCount = 0 then 1 else (internetCount : ℚ)
  let flowPer := (totalIncoming - attackVolume) / k
  let attackPer := attackVolume / k
  let seeded := reset.map (fun n =>
    if n.kind == .internet then
      { n with bufCur := ⟨flowPer * (3/10), flowPer * (35/100), flowPer * (1/10),
          flowPer * (1/10), flowPer * (15/100), attackPer⟩ }
    else n)
  { nodes := seeded, edges := sc.edges, codes := Codes.zero,
    tallies := Tallies.zero, latAcc := 0, latCount := 0,
    maxLoadFactor := 0, trafficMoved := false }

/-- The settlement part of one tick: generated volumes, seeding, and the
six-round loop.  Returns the final simulation state together with
totalIncoming and attackVolume. -/
def runTickState (p : TickParams) (sc : Scene) : SimState × ℚ × ℚ :=
  let v := tickTrafficVolume p sc
  (runRounds ⟨p.hasShield, p.jitter⟩ 6 (seedState sc v.2.1 v.2.2), v.2.1, v.2.2)

/-- runTrafficSimulation (lines 1108-1737): one full tick, from traffic
generation through the settlement loop to the metrics aggregation. -/
def runTrafficSimulation (p : TickParams) (sc : Scene) : Scene :=
  let v := tickTrafficVolume p sc
  let base := v.1
  let ti := v.2.1
  let av := v.2.2
  let st := runRounds ⟨p.hasShield, p.jitter⟩ 6 (seedState sc ti av)
  let successful := st.tallies.webSuc + st.tallies.dbReadSuc + st.tallies.dbWriteSuc +
    st.tallies.dbSearchSuc + st.tallies.statSuc
  let failed := st.tallies.webFail + st.tallies.dbReadFail + st.tallies.dbWriteFail +
    st.tallies.dbSearchFail + st.tallies.statFail
  let legit := ti - av
  let baseLatency : ℚ := if p.hasAccelerator then 10 else 20
  let avgNodeLatency := if 0 < st.latCount then st.latAcc / (st.latCount : ℚ) else 0
  let latencyMs := jsRound (baseLatency + avgNodeLatency)
  let p95Penalty :=
    if 8/10 < st.maxLoadFactor then (st.maxLoadFactor - 8/10) * 2000
    else st.maxLoadFactor * 50
  let p95 := jsRound ((latencyMs : ℚ) * 1.5 + p95Penalty)
  let totalLegitFailed := failed - st.tallies.atkFail
  let errorRate := if 0 < legit then totalLegitFailed / legit else 0
  let latencyPenalty : ℚ := if 1500 < p95 then 0.3 else if 500 < p95 then 0.1 else 0
  let newSat :=
    if 1/20 < errorRate then max 0 (sc.userSatisfaction - 0.2)
    else min 100 (max 0 (sc.userSatisfaction + 0.05 - latencyPenalty))
  { sc with
    nodes := st.nodes
    currentBaseTraffic := base
    codes := { st.codes with c200 := successful }
    tallies := st.tallies
    activeUsers := ti
    revenuePerSec := st.tallies.webSuc * 0.02 + st.tallies.dbReadSuc * 0.01 +
      st.tallies.dbWriteSuc * 0.8 + st.tallies.dbSearchSuc * 0.15 +
      st.tallies.statSuc * 0.001
    techPoints := sc.techPoints + successful * 0.001
    successfulRequests := successful
    failedRequests := failed
    totalRequests := ti
    uptime := if 0 < legit then min 100 (successful / legit * 100) else 100
    latencyMs := latencyMs
    p95LatencyMs := p95
    userSatisfaction := newSat }

/-- Cost charged by externalAddNode (lines 275-282): compute nodes with
an explicit tier are priced by the tier capex, everything else by
NODE_COSTS. -/
def addNodeCost (k : NodeKind) (initialTier : Option ComputeTier) : ℚ :=
  match k, initialTier with
  | .compute, some t => computeCapex t
  | _, _ => nodeCost k

/-- The node record that addNode (lines 410-466) creates, with both
traffic buffers initialised empty. -/
def freshNode (k : NodeKind) (x : ℚ) (initialTier : Option ComputeTier)
    (newId : ℕ) : Node :=
  { id := newId
    kind := k
    status := .active
    tier := if k = .compute ∨ k = .autoscalingGroup then some (initialTier.getD .t1) else none
    cdnTier := if k = .cdn then some .edgeBasic else none
    dbRole := if k = .database then some .primary else none
    algorithm := if k = .loadBalancer then some .roundRobin else none
    az := if x < 400 then 0 else 1
    currentLoad := 0
    loadHistory := List.replicate 30 0
    processedReqs := 0
    droppedReqs := 0
    cacheHitRate := 1/10
    totalServed := 0
    invalidationPressure := 0
    hasStorageConnection := false
    currentInstances := if k = .autoscalingGroup then 1 else 0
    minInstances := if k = .autoscalingGroup then 1 else 0
    maxInstances := if k = .autoscalingGroup then 5 else 0
    scalingCooldown := 0
    bufCur := Mix.zero
    bufNext := Mix.zero }

/-- externalAddNode (lines 275-293): charge the cost and append the node
when affordable; otherwise report the insufficient-funds signal (the
returned Bool) and leave the scene untouched. -/
def externalAddNode (sc : Scene) (k : NodeKind) (x : ℚ)
    (initialTier : Option ComputeTier) (newId : ℕ) : Scene × Bool :=
  let cost := addNodeCost k initialTier
  if cost ≤ sc.cash then
    ({ sc with cash := sc.cash - cost,
               nodes := sc.nodes ++ [freshNode k x initialTier newId] }, false)
  else (sc, true)

/-- A context with no unlocked shield and centred (deterministic) jitter
draws, for concrete runs. -/
def ctxPlain : Ctx := ⟨false, fun _ _ => 1/2⟩

/-- A simulation state with fresh counters around the given node and
edge tables, for concrete runs. -/
def simOf (ns : List Node) (es : List (ℕ × ℕ)) : SimState :=
  { nodes := ns, edges := es, codes := Codes.zero, tallies := Tallies.zero,
    latAcc := 0, latCount := 0, maxLoadFactor := 0, trafficMoved := false }

/-- The scene state right after reset() (lines 223-255), before any
editing: empty topology and the initial metrics of
createInitialMetrics. -/
def baseScene : Scene :=
  { nodes := [], edges := [], cash := 3000, techPoints := 0,
    currentBaseTraffic := 100, userSatisfaction := 100, uptime := 100,
    totalRequests := 0, successfulRequests := 0, failedRequests := 0,
    latencyMs := 20, p95LatencyMs := 20, activeUsers := 50,
    revenuePerSec := 0, codes := Codes.zero, tallies := Tallies.zero }

/-- Deterministic tick parameters: no technologies, zero daily-cycle
sample, centred noise and jitter draws, no attack. -/
def plainParams : TickParams :=
  { hasShield := false, hasAccelerator := false, daily := 0,
    noiseDraw := 1/2, jitter := fun _ _ => 1/2, underAttack := false }

/-- Whether a node kind is handled by the generic-router branch of the
routing dispatch (no specialised branch of its own). -/
def isGenericKind (k : NodeKind) : Bool :=
  match k with
  | .cdn | .compute | .cache | .database | .databaseNoSql | .storage => false
  | _ => true

/-- Sum of the legitimate success tallies (the "successful" total of
lines 1675). -/
def Tallies.sucSum (t : Tallies) : ℚ :=
  t.webSuc + t.dbReadSuc + t.dbWriteSuc + t.dbSearchSuc + t.statSuc

/-- Sum of the legitimate failure tallies (the "failed" total of
line 1676). -/
def Tallies.failSum (t : Tallies) : ℚ :=
  t.webFail + t.dbReadFail + t.dbWriteFail + t.dbSearchFail + t.statFail

/-- Total legitimate volume sitting in next-round buffers. -/
def nextLegit (nodes : List Node) : ℚ :=
  (nodes.map (fun n => n.bufNext.legit)).sum

/-- Total attack volume sitting in next-round buffers. -/
def nextAtk (nodes : List Node) : ℚ :=
  (nodes.map (fun n => n.bufNext.atk)).sum

/-- Legitimate-traffic account of a state: success tallies plus failure
tallies plus legitimate volume still in next-round buffers. -/
def legitAccount (st : SimState) : ℚ :=
  st.tallies.sucSum + st.tallies.failSum + nextLegit st.nodes

/-- Attack-traffic account of a state: attack success and failure
tallies plus attack volume still in next-round buffers. -/
def atkAccount (st : SimState) : ℚ :=
  st.tallies.atkSuc + st.tallies.atkFail + nextAtk st.nodes

/-- The node record as rewritten by the admission phase of an active,
above-threshold settlement step (lines 1254-1324 of the source). -/
def procNode3 (hasShield : Bool) (node : Node) : Node :=
  let mix1 := mixAfterSecurity hasShield node
  let ratio := admitRatio hasShield node
  let dropped := mix1.total * (1 - ratio)
  let newLoad := newLoadOf hasShield node
  let hist := node.loadHistory ++ [newLoad]
  { scaledNode node with
    currentLoad := newLoad
    loadHistory := if 30 < hist.length then hist.tail else hist
    droppedReqs := node.droppedReqs + dropped
    processedReqs := node.processedReqs + mix1.total * ratio
    bufCur := mix1 }

/-- The simulation state right before the routing phase of an active,
above-threshold settlement step: security filter applied, 403/429
counted, load and latency recorded, overflow failed. -/
def procMid (ctx : Ctx) (st : SimState) (node : Node) : SimState :=
  let mix1 := mixAfterSecurity ctx.hasShield node
  let blocked := node.bufCur.atk - mix1.atk
  let st1 := { st with
    nodes := updateNode st.nodes node.id (fun n => { n with bufCur := mix1 })
    codes :=
      if 0 < blocked then { st.codes with c403 := st.codes.c403 + blocked }
      else st.codes }
  let ratio := admitRatio ctx.hasShield node
  let dropped := mix1.total * (1 - ratio)
  let newLoad := newLoadOf ctx.hasShield node
  let loadFactor := min (99/100) (newLoad / 100)
  let st2 := { st1 with
    trafficMoved := true
    codes :=
      if 0 < dropped then { st1.codes with c429 := st1.codes.c429 + dropped }
      else st1.codes
    maxLoadFactor := max st1.maxLoadFactor loadFactor
    latAcc := if 0 < node.processedReqs then st1.latAcc + latencyOf newLoad else st1.latAcc
    latCount := if 0 < node.processedReqs then st1.latCount + 1 else st1.latCount
    nodes := updateNode st1.nodes node.id (fun _ => procNode3 ctx.hasShield node) }
  if ratio < 1 then { st2 with tallies := st2.tallies.addFail (mix1.scale (1 - ratio)) }
  else st2

/-- C8: an addNode request whose cost exceeds the cash balance reports
the insufficient-funds signal and mutates nothing: the returned scene
is the input scene unchanged (same nodes, same cash, no buffers
created) and the signal flag is set. -/
theorem addNode_insufficient_funds (sc : Scene) (k : NodeKind) (x : ℚ)
    (tier : Option ComputeTier) (newId : ℕ)
    (h : sc.cash < addNodeCost k tier) :
    externalAddNode sc k x tier newId = (sc, true) := by
  unfold externalAddNode
  rw [if_neg (not_le.mpr h)]

/-- Witness for addNode_insufficient_funds: a tier-5 compute node costs
5000 against the initial 3000 cash, and the call leaves the fresh scene
untouched while signalling. -/
theorem addNode_insufficient_funds_witness :
    baseScene.cash < addNodeCost .compute (some .t5) ∧
    externalAddNode baseScene .compute 100 (some .t5) 7 = (baseScene, true) :=
  ⟨by norm_num [baseScene, addNodeCost, computeCapex],
   addNode_insufficient_funds baseScene .compute 100 (some .t5) 7
     (by norm_num [baseScene, addNodeCost, computeCapex])⟩

end CloudSim

namespace CloudSim

/-- C2 counterexample: a down node holding 0.05 units of buffered
traffic, a positive amount at or below the 0.1 threshold, fails
nothing: no 500s are recorded and the buffer is left in place, against
the spec's unconditional "fails all buffered traffic". -/
theorem down_node_threshold_counterexample :
    let node : Node := { freshNode .compute 100 (some .t1) 1 with
      status := .down, bufCur := ⟨1/20, 0, 0, 0, 0, 0⟩ }
    let st' := processNode ctxPlain (simOf [node] []) node
    node.status = .down ∧ 0 < node.bufCur.total ∧
    st'.codes.c500 = 0 ∧
    st'.nodes.map (fun n => n.bufCur) = [⟨1/20, 0, 0, 0, 0, 0⟩] := by
  with_unfolding_all decide

/-- C2 (amended): a non-active node whose buffered volume exceeds the
0.1 threshold fails it all in the settlement step: the whole current
buffer is added to the 500 counter and to the per-kind failure tallies,
and the buffer is cleared. -/
theorem down_node_settlement (ctx : Ctx) (st : SimState) (node : Node)
    (hdown : node.status ≠ .active) (hvol : 1/10 < node.bufCur.total) :
    (processNode ctx st node).codes.c500 = st.codes.c500 + node.bufCur.total ∧
    (processNode ctx st node).tallies = st.tallies.addFail node.bufCur ∧
    (∀ n' ∈ (processNode ctx st node).nodes, n'.id = node.id → n'.bufCur = Mix.zero) ∧
    (processNode ctx st node).nodes.map (fun n => (n.id, n.processedReqs)) =
      st.nodes.map (fun n => (n.id, n.processedReqs)) := by
  simp only [processNode]
  rw [if_pos hdown, if_pos hvol]
  refine ⟨rfl, rfl, ?_, ?_⟩
  · intro n' hmem hid
    simp only [updateNode, List.mem_map] at hmem
    obtain ⟨n, hn, rfl⟩ := hmem
    by_cases h : n.id = node.id
    · simp [h]
    · simp only [beq_iff_eq, h, if_false] at hid ⊢
  · simp only [updateNode, List.map_map]
    congr 1
    funext n
    by_cases h : n.id = node.id <;> simp [h]

theorem down_node_settlement_witness :
    let node : Node := { freshNode .waf 100 none 2 with
      status := .booting, bufCur := ⟨1, 2, 1, 1, 1, 0⟩ }
    (processNode ctxPlain (simOf [node] []) node).codes.c500 = 6 := by
  intro node
  have h := down_node_settlement ctxPlain (simOf [node] []) node
    (by with_unfolding_all decide) (by with_unfolding_all decide)
  rw [h.1]
  with_unfolding_all decide

/-- C3 counterexample: a least-connection target list whose total
weight is zero (one child of weight 0) makes lbDistribute return the
state unchanged: the dynamic volume is neither forwarded nor counted as
failed, a silent drop with no 503 and no failure tallies. -/
theorem zero_weight_counterexample :
    let node := freshNode .loadBalancer 100 none 1
    let st := simOf [node, freshNode .compute 100 (some .t1) 2] [(1, 2)]
    ((2 : ℕ), (0 : ℚ)) :: [] = [(2, 0)] ∧
    (lbDistribute ctxPlain .leastConnection node [(2, 0)] 3 3 2 1 1 st = st ∧
     st.codes.c503 = 0 ∧ st.tallies.webFail = 0 ∧ st.tallies.atkFail = 0) := by
  with_unfolding_all decide

/-- C3 (amended): when the summed load-balancer weights are not
positive the distribution loop is skipped and the dynamic volume
vanishes silently (first part); however, each algorithm's weight
formula is strictly positive on every node, so a zero total cannot
arise from a nonempty healthy-children list (second part). -/
theorem zero_weight_silent_drop :
    (∀ (ctx : Ctx) (algo : LBAlgo) (node : Node) (targets : List (ℕ × ℚ))
       (web dbRead dbWrite dbSearch atk : ℚ) (st : SimState),
       (targets.map (fun t => t.2)).sum ≤ 0 →
       lbDistribute ctx algo node targets web dbRead dbWrite dbSearch atk st = st) ∧
    (∀ (algo : LBAlgo) (c : Node), 0 < lbWeight algo c) := by
  constructor
  · intro ctx algo node targets web dbRead dbWrite dbSearch atk st h
    unfold lbDistribute
    rw [if_neg (not_lt.mpr h)]
  · intro algo c
    cases algo with
    | random => norm_num [lbWeight]
    | roundRobin => norm_num [lbWeight]
    | weightedRoundRobin =>
        cases h : c.tier with
        | none => norm_num [lbWeight, h]
        | some t => cases t <;> norm_num [lbWeight, h, computeCapacity]
    | leastConnection =>
        have h1 : (0:ℚ) < max 1 (100 - c.currentLoad) :=
          lt_of_lt_of_le one_pos (le_max_left _ _)
        simpa [lbWeight] using pow_pos h1 2
    | weightedLeastConnection =>
        have h1 : (0:ℚ) < max (1/100) ((100 - c.currentLoad) / 100) :=
          lt_of_lt_of_le (by norm_num) (le_max_left _ _)
        have h2 : (0:ℚ) < (match c.tier with
          | some t => computeCapacity t
          | none => 100) := by
          cases c.tier with
          | none => norm_num
          | some t => cases t <;> norm_num [computeCapacity]
        simpa [lbWeight] using mul_pos h2 h1
    | leastResponseTime =>
        have h1 : (0:ℚ) < max 1 (5 + 20 * (c.currentLoad / 100) +
            (if 85/100 < c.currentLoad / 100 then
              (c.currentLoad / 100 * 10 - 85/10) ^ 3 * 10 else 0)) :=
          lt_of_lt_of_le one_pos (le_max_left _ _)
        simpa [lbWeight] using div_pos (by norm_num : (0:ℚ) < 1000) h1

theorem zero_weight_silent_drop_witness :
    lbDistribute ctxPlain .leastConnection (freshNode .loadBalancer 100 none 1)
      [(2, 0)] 1 1 1 1 1 (simOf [] []) = simOf [] [] ∧
    0 < lbWeight .leastConnection (freshNode .compute 100 (some .t1) 2) :=
  ⟨zero_weight_silent_drop.1 ctxPlain .leastConnection
      (freshNode .loadBalancer 100 none 1) [(2, 0)] 1 1 1 1 1 (simOf [] [])
      (by with_unfolding_all decide),
   zero_weight_silent_drop.2 .leastConnection (freshNode .compute 100 (some .t1) 2)⟩

end CloudSim

namespace CloudSim

theorem admitRatio_le_one (hasShield : Bool) (n : Node) :
    admitRatio hasShield n ≤ 1 := by
  simp only [admitRatio]
  split
  · split
    · exact le_refl 1
    · exact min_le_left 1 _
  · norm_num

/-- C5: at an active SQL database node with volume above the skip
threshold, a replica fails every admitted write (dbWriteFail grows by
the buffered write volume and dbWriteSuc is unchanged), while a primary
succeeds on the admitted share and fails only the overflow. -/
theorem sql_replica_write_reject (ctx : Ctx) (st : SimState) (node : Node)
    (hkind : node.kind = .database) (hactive : node.status = .active)
    (hvol : 1/10 < (mixAfterSecurity ctx.hasShield node).total) :
    (node.dbRole = some .replica →
       (processNode ctx st node).tallies.dbWriteFail =
         st.tallies.dbWriteFail + node.bufCur.dbWrite ∧
       (processNode ctx st node).tallies.dbWriteSuc = st.tallies.dbWriteSuc) ∧
    (node.dbRole = some .primary →
       (processNode ctx st node).tallies.dbWriteSuc =
         st.tallies.dbWriteSuc + node.bufCur.dbWrite * admitRatio ctx.hasShield node ∧
       (processNode ctx st node).tallies.dbWriteFail =
         st.tallies.dbWriteFail +
           node.bufCur.dbWrite * (1 - admitRatio ctx.hasShield node)) := by
  have hscaled : scaledNode node = node := by
    simp [scaledNode, hkind]
  have hne : ¬ (node.status ≠ NodeStatus.active) := by simp [hactive]
  simp only [processNode]
  rw [if_neg hne, if_neg (not_le.mpr hvol)]
  simp only [routeNode, hscaled, hkind]
  simp only [routeDatabase]
  by_cases hr : admitRatio ctx.hasShield node < 1
  · rw [if_pos hr]
    constructor
    · intro hrole
      simp only [hrole]
      simp only [mixAfterSecurity, Mix.scale, Tallies.addFail]
      rw [if_pos (by simp : (some DbRole.replica == some DbRole.replica) = true)]
      constructor <;> ring
    · intro hrole
      simp only [hrole]
      simp only [mixAfterSecurity, Mix.scale, Tallies.addFail]
      rw [if_neg (by simp : ¬ ((some DbRole.primary == some DbRole.replica) = true))]
      constructor <;> ring
  · have hr1 : admitRatio ctx.hasShield node = 1 :=
      le_antisymm (admitRatio_le_one _ _) (not_lt.mp hr)
    rw [if_neg hr]
    constructor
    · intro hrole
      simp only [hrole]
      simp only [mixAfterSecurity, hr1]
      rw [if_pos (by simp : (some DbRole.replica == some DbRole.replica) = true)]
      constructor <;> ring
    · intro hrole
      simp only [hrole]
      simp only [mixAfterSecurity, hr1]
      rw [if_neg (by simp : ¬ ((some DbRole.primary == some DbRole.replica) = true))]
      constructor <;> ring

end CloudSim

namespace CloudSim

theorem sql_replica_write_reject_witness :
    let node : Node := { freshNode .database 100 none 1 with
      dbRole := some .replica, bufCur := ⟨0, 2, 4, 1, 0, 0⟩ }
    (processNode ctxPlain (simOf [node] []) node).tallies.dbWriteFail = 4 ∧
    (processNode ctxPlain (simOf [node] []) node).tallies.dbWriteSuc = 0 := by
  intro node
  have h := (sql_replica_write_reject ctxPlain (simOf [node] []) node rfl rfl
    (by with_unfolding_all decide)).1 rfl
  rw [h.1, h.2]
  constructor <;> with_unfolding_all decide

/-- C6 counterexample: a topology with only an Internet source node
drops all traffic as 503 and ends the tick with uptime 0, not the 100
claimed by the spec (uptime is min(100, successful/legit*100) whenever
legit > 0). -/
theorem source_only_uptime_counterexample :
    let sc : Scene := { baseScene with
      nodes := [freshNode .internet 100 none 1], currentBaseTraffic := 10 }
    (runTrafficSimulation plainParams sc).totalRequests = 10 ∧
    (runTrafficSimulation plainParams sc).codes.c503 = 10 ∧
    (runTrafficSimulation plainParams sc).uptime = 0 ∧
    ((0 : ℚ) ≠ 100) := by
  with_unfolding_all decide

/-- C6 (amended): with only an Internet source and base traffic at the
floor of 10, the tick records 10 total requests, 0 successful, 10
failed, all 10 as 503, and an uptime of 0. -/
theorem source_only_tick :
    let sc : Scene := { baseScene with
      nodes := [freshNode .internet 100 none 1], currentBaseTraffic := 10 }
    let sc' := runTrafficSimulation plainParams sc
    sc'.totalRequests = 10 ∧ sc'.successfulRequests = 0 ∧
    sc'.failedRequests = 10 ∧ sc'.codes = ⟨0, 0, 0, 0, 10⟩ ∧ sc'.uptime = 0 := by
  with_unfolding_all decide

theorem map_if_id (l : List Node) (p : Node → Bool) (f : Node → Node)
    (h : ∀ n ∈ l, f n = n) : l.map (fun n => if p n then f n else n) = l := by
  induction l with
  | nil => rfl
  | cons a t ih =>
      simp only [List.map_cons, List.cons.injEq]
      refine ⟨?_, ih fun n hn => h n (List.mem_cons_of_mem a hn)⟩
      by_cases ha : p a = true
      · rw [if_pos ha, h a (List.mem_cons_self a t)]
      · rw [if_neg ha]

theorem processNode_fix_of_zero (ctx : Ctx) (st : SimState) (node : Node)
    (hall : ∀ n ∈ st.nodes, n.bufCur = Mix.zero) (hb : node.bufCur = Mix.zero) :
    processNode ctx st node = st := by
  have hmix : mixAfterSecurity ctx.hasShield node = Mix.zero := by
    simp [mixAfterSecurity, hb, Mix.zero]
  have hupd : ∀ g : Node → Node, (∀ n ∈ st.nodes, g n = n) →
      updateNode st.nodes node.id g = st.nodes := by
    intro g hg
    unfold updateNode
    exact map_if_id _ _ _ hg
  by_cases hs : node.status ≠ NodeStatus.active
  · simp only [processNode]
    rw [if_pos hs, if_neg (by rw [hb]; norm_num [Mix.total, Mix.zero])]
  · simp only [processNode]
    rw [if_neg hs, hmix, hb]
    rw [if_neg (by norm_num : ¬ (0 : ℚ) < Mix.zero.atk - Mix.zero.atk)]
    rw [if_pos (by norm_num [Mix.total, Mix.zero] : Mix.zero.total ≤ (1 : ℚ)/10)]
    rw [hupd _ (fun n hn => by rw [← hall n hn])]

theorem processStep_fix_of_zero (ctx : Ctx) (st : SimState) (id : ℕ)
    (hall : ∀ n ∈ st.nodes, n.bufCur = Mix.zero) :
    processStep ctx st id = st := by
  unfold processStep
  cases hf : findNode st.nodes id with
  | none => rfl
  | some node =>
      exact processNode_fix_of_zero ctx st node hall
        (hall node (List.mem_of_find?_eq_some hf))

theorem foldl_processStep_fix (ctx : Ctx) (ids : List ℕ) (st : SimState)
    (hall : ∀ n ∈ st.nodes, n.bufCur = Mix.zero) :
    ids.foldl (processStep ctx) st = st := by
  induction ids with
  | nil => rfl
  | cons a t ih =>
      simp only [List.foldl_cons]
      rw [processStep_fix_of_zero ctx st a hall]
      exact ih

theorem runRound_of_zero (ctx : Ctx) (st : SimState)
    (hall : ∀ n ∈ st.nodes, n.bufCur = Mix.zero) :
    runRound ctx st =
      { st with nodes := clearNextBuffers st.nodes, trafficMoved := false } := by
  unfold runRound
  apply foldl_processStep_fix
  intro n hn
  simp only [clearNextBuffers, List.mem_map] at hn
  obtain ⟨m, hm, rfl⟩ := hn
  exact hall m hm

/-- C7: on a settled state (no residual buffered volume in any current
buffer) a settlement pass is a no-op for the processed and dropped
counters, records no failures, and the loop stops after its first
round. -/
theorem settled_state_noop (ctx : Ctx) (st : SimState)
    (hall : ∀ n ∈ st.nodes, n.bufCur = Mix.zero) :
    (runRound ctx st).trafficMoved = false ∧
    runRounds ctx 6 st = runRound ctx st ∧
    (runRound ctx st).nodes.map (fun n => (n.id, n.processedReqs, n.droppedReqs)) =
      st.nodes.map (fun n => (n.id, n.processedReqs, n.droppedReqs)) ∧
    (runRound ctx st).codes = st.codes ∧
    (runRound ctx st).tallies = st.tallies := by
  have hr := runRound_of_zero ctx st hall
  refine ⟨by rw [hr], ?_, ?_, by rw [hr], by rw [hr]⟩
  · show runRounds ctx (5 + 1) st = runRound ctx st
    rw [runRounds]
    rw [hr]
    rfl
  · rw [hr]
    simp only [clearNextBuffers, List.map_map]
    rfl

theorem settled_state_noop_witness :
    let nodeA : Node := { freshNode .compute 100 (some .t1) 1 with
      processedReqs := 7, droppedReqs := 3 }
    let nodeB : Node := { freshNode .waf 100 none 2 with status := .down }
    let st := simOf [nodeA, nodeB] [(2, 1)]
    (runRound ctxPlain st).trafficMoved = false ∧
    runRounds ctxPlain 6 st = runRound ctxPlain st := by
  intro nodeA nodeB st
  have h := settled_state_noop ctxPlain st (by with_unfolding_all decide)
  exact ⟨h.1, h.2.1⟩

end CloudSim

namespace CloudSim

/-- C9: the Random load balancer applies the jitter factor
max(0, r + r*(rand-0.5)*0.5) to each child's share independently and
never renormalises: with draws 0.9 and 0.5 over two equal children, 10
units of web volume forward as 6 and 5, a total of 11 and not 10. -/
theorem random_jitter_no_renormalization :
    let lb : Node := { freshNode .loadBalancer 100 none 1 with
      algorithm := some .random, bufCur := ⟨10, 0, 0, 0, 0, 0⟩ }
    let ctx : Ctx := ⟨false, fun _ k => if k = 0 then 9/10 else 1/2⟩
    let st := simOf [lb, freshNode .compute 100 (some .t1) 2,
                     freshNode .compute 100 (some .t1) 3] [(1, 2), (1, 3)]
    let st' := processNode ctx st lb
    st'.nodes.map (fun n => (n.id, n.bufNext.web)) = [(1, 0), (2, 6), (3, 5)] ∧
    ((6 : ℚ) + 5 ≠ 10) := by
  with_unfolding_all decide

/-- C1 counterexample: a full tick through internet, Random load
balancer and compute with jitter draw 0.9 inflates the books: the
tick's legitimate ingress is 10 but successful plus failed totals 11.7,
with no volume left in flight (the 6-round cap was not hit), refuting
exact tick-level conservation even without floating-point error. -/
theorem conservation_jitter_counterexample :
    let sc : Scene := { baseScene with
      nodes := [freshNode .internet 100 none 1,
                { freshNode .loadBalancer 100 none 2 with algorithm := some .random },
                freshNode .compute 100 (some .t3) 3],
      edges := [(1, 2), (2, 3)],
      currentBaseTraffic := 10 }
    let p : TickParams := { plainParams with
      jitter := fun n _ => if n = 2 then 9/10 else 1/2 }
    let r := runTickState p sc
    r.2.1 - r.2.2 = 10 ∧
    r.1.tallies.sucSum + r.1.tallies.failSum = 117/10 ∧
    ((117 : ℚ)/10 ≠ 10) ∧
    r.1.nodes.map (fun n => n.bufCur) = [Mix.zero, Mix.zero, Mix.zero] := by
  with_unfolding_all decide

/-- C4 counterexample: a node that processes requests for the first
time in a tick (processedReqs goes 0 to 10) contributes nothing to the
latency accumulator, because the processedReqs > 0 check reads the
counter before it is incremented; the heuristic latency it would have
contributed is positive at every nonnegative load. -/
theorem latency_gate_counterexample :
    let sc : Scene := { baseScene with
      nodes := [freshNode .internet 100 none 1], currentBaseTraffic := 10 }
    let r := runTickState plainParams sc
    r.1.nodes.map (fun n => (n.id, n.processedReqs)) = [(1, 10)] ∧
    r.1.latCount = 0 ∧ r.1.latAcc = 0 ∧
    (runTrafficSimulation plainParams sc).latencyMs = 20 ∧
    (∀ load : ℚ, 0 ≤ load → 0 < latencyOf load) := by
  refine ⟨?_, ?_, ?_, ?_, fun load hload => ?_⟩
  · with_unfolding_all decide
  · with_unfolding_all decide
  · with_unfolding_all decide
  · with_unfolding_all decide
  · unfold latencyOf
    have hlf0 : 0 ≤ min (99/100 : ℚ) (load / 100) := le_min (by norm_num) (by positivity)
    have hcube : (0:ℚ) ≤ (if 85/100 < min (99/100 : ℚ) (load / 100) then
        (min (99/100 : ℚ) (load / 100) * 10 - 85/10) ^ 3 * 10 else 0) := by
      split
      · rename_i hgt
        have hbase : (0:ℚ) ≤ min (99/100 : ℚ) (load / 100) * 10 - 85/10 := by linarith
        exact mul_nonneg (pow_nonneg hbase 3) (by norm_num)
      · exact le_refl 0
    linarith

end CloudSim

namespace CloudSim

theorem mem_updateNode {nodes : List Node} {id : ℕ} {f : Node → Node} {n' : Node}
    (h : n' ∈ updateNode nodes id f) : (∃ n ∈ nodes, n' = f n) ∨ n' ∈ nodes := by
  simp only [updateNode, List.mem_map] at h
  obtain ⟨n, hn, rfl⟩ := h
  by_cases hc : (n.id == id) = true
  · exact Or.inl ⟨n, hn, by rw [if_pos hc]⟩
  · right
    rw [if_neg hc]
    exact hn

theorem updateNode_map_proj {α : Type} (proj : Node → α) (nodes : List Node)
    (id : ℕ) (f : Node → Node) (h : ∀ n, proj (f n) = proj n) :
    (updateNode nodes id f).map proj = nodes.map proj := by
  simp only [updateNode, List.map_map]
  apply List.map_congr_left
  intro n _
  by_cases hc : (n.id == id) = true
  · simp only [Function.comp_apply, if_pos hc, h]
  · simp only [Function.comp_apply, if_neg hc]

theorem updateNode_ids (nodes : List Node) (id : ℕ) (f : Node → Node)
    (h : ∀ n, (f n).id = n.id) :
    (updateNode nodes id f).map (fun n => n.id) = nodes.map (fun n => n.id) :=
  updateNode_map_proj _ nodes id f h

theorem nextLegit_updateNode (nodes : List Node) (id : ℕ) (f : Node → Node)
    (h : ∀ n, (f n).bufNext = n.bufNext) :
    nextLegit (updateNode nodes id f) = nextLegit nodes := by
  unfold nextLegit
  rw [updateNode_map_proj (fun n => n.bufNext.legit) nodes id f (fun n => by simp only [h])]

theorem nextAtk_updateNode (nodes : List Node) (id : ℕ) (f : Node → Node)
    (h : ∀ n, (f n).bufNext = n.bufNext) :
    nextAtk (updateNode nodes id f) = nextAtk nodes := by
  unfold nextAtk
  rw [updateNode_map_proj (fun n => n.bufNext.atk) nodes id f (fun n => by simp only [h])]

theorem Mix.legit_add (a b : Mix) : (a + b).legit = a.legit + b.legit := by
  show (Mix.legit ⟨a.web + b.web, a.dbRead + b.dbRead, a.dbWrite + b.dbWrite,
    a.dbSearch + b.dbSearch, a.stat + b.stat, a.atk + b.atk⟩) = _
  unfold Mix.legit
  ring

theorem Mix.atk_add (a b : Mix) : (a + b).atk = a.atk + b.atk := rfl

theorem sum_map_ite_eq_add (l : List Node) (id : ℕ) (g : Node → ℚ) (c : ℚ)
    (hnodup : (l.map (fun n => n.id)).Nodup) (hex : ∃ n ∈ l, n.id = id) :
    (l.map (fun n => if (n.id == id) = true then g n + c else g n)).sum
      = (l.map g).sum + c := by
  induction l with
  | nil => simp at hex
  | cons a t ih =>
      simp only [List.map_cons, List.nodup_cons] at hnodup
      simp only [List.map_cons, List.sum_cons]
      by_cases ha : a.id = id
      · rw [if_pos (beq_iff_eq.mpr ha)]
        have ht : t.map (fun n => if (n.id == id) = true then g n + c else g n) =
            t.map g := by
          apply List.map_congr_left
          intro n hn
          rw [if_neg]
          intro hq
          apply hnodup.1
          have hna : n.id = a.id := by rw [beq_iff_eq.mp hq, ha]
          rw [← hna]
          exact List.mem_map_of_mem _ hn
        rw [ht]
        ring
      · rw [if_neg (by simpa using ha)]
        rcases hex with ⟨n, hn, hid⟩
        rcases List.mem_cons.mp hn with rfl | hnt
        · exact absurd hid ha
        · rw [ih hnodup.2 ⟨n, hnt, hid⟩]
          ring

theorem nextLegit_addNext (nodes : List Node) (id : ℕ) (d : Mix)
    (hex : ∃ n ∈ nodes, n.id = id)
    (hnodup : (nodes.map (fun n => n.id)).Nodup) :
    nextLegit (addNext nodes id d) = nextLegit nodes + d.legit := by
  unfold nextLegit addNext updateNode
  rw [List.map_map]
  have hfun : ((fun n : Node => n.bufNext.legit) ∘
      (fun n => if (n.id == id) = true then { n with bufNext := n.bufNext + d } else n)) =
      (fun n : Node => if (n.id == id) = true then n.bufNext.legit + d.legit
        else n.bufNext.legit) := by
    funext n
    by_cases hc : (n.id == id) = true
    · simp only [Function.comp_apply, if_pos hc, Mix.legit_add]
    · simp only [Function.comp_apply, if_neg hc]
  rw [hfun]
  exact sum_map_ite_eq_add nodes id (fun n => n.bufNext.legit) d.legit hnodup hex

theorem nextAtk_addNext (nodes : List Node) (id : ℕ) (d : Mix)
    (hex : ∃ n ∈ nodes, n.id = id)
    (hnodup : (nodes.map (fun n => n.id)).Nodup) :
    nextAtk (addNext nodes id d) = nextAtk nodes + d.atk := by
  unfold nextAtk addNext updateNode
  rw [List.map_map]
  have hfun : ((fun n : Node => n.bufNext.atk) ∘
      (fun n => if (n.id == id) = true then { n with bufNext := n.bufNext + d } else n)) =
      (fun n : Node => if (n.id == id) = true then n.bufNext.atk + d.atk
        else n.bufNext.atk) := by
    funext n
    by_cases hc : (n.id == id) = true
    · simp only [Function.comp_apply, if_pos hc, Mix.atk_add]
    · simp only [Function.comp_apply, if_neg hc]
  rw [hfun]
  exact sum_map_ite_eq_add nodes id (fun n => n.bufNext.atk) d.atk hnodup hex

theorem addNext_ids (nodes : List Node) (id : ℕ) (d : Mix) :
    (addNext nodes id d).map (fun n => n.id) = nodes.map (fun n => n.id) :=
  updateNode_ids nodes id _ (fun _ => rfl)

theorem mem_addNext {nodes : List Node} {id : ℕ} {d : Mix} {n' : Node}
    (h : n' ∈ addNext nodes id d) :
    (∃ n ∈ nodes, n' = { n with bufNext := n.bufNext + d }) ∨ n' ∈ nodes :=
  mem_updateNode h

theorem exists_id_addNext (nodes : List Node) (id tid : ℕ) (d : Mix)
    (hex : ∃ n ∈ nodes, n.id = tid) :
    ∃ n ∈ addNext nodes id d, n.id = tid := by
  rcases hex with ⟨n, hn, hid⟩
  subst hid
  unfold addNext updateNode
  by_cases hc : (n.id == id) = true
  · exact ⟨{ n with bufNext := n.bufNext + d }, by
      refine List.mem_map.mpr ⟨n, hn, ?_⟩
      rw [if_pos hc], rfl⟩
  · exact ⟨n, by
      refine List.mem_map.mpr ⟨n, hn, ?_⟩
      rw [if_neg hc], rfl⟩

theorem nextLegit_forwardAll (l : List (ℕ × Mix)) (nodes : List Node)
    (hex : ∀ t ∈ l, ∃ n ∈ nodes, n.id = t.1)
    (hnodup : (nodes.map (fun n => n.id)).Nodup) :
    nextLegit (forwardAll nodes l) = nextLegit nodes + (l.map (fun t => t.2.legit)).sum := by
  induction l generalizing nodes with
  | nil => simp [forwardAll]
  | cons a t ih =>
      show nextLegit (forwardAll (addNext nodes a.1 a.2) t) = _
      rw [ih (addNext nodes a.1 a.2)
            (fun u hu => exists_id_addNext nodes a.1 u.1 a.2 (hex u (List.mem_cons_of_mem a hu)))
            (by rw [addNext_ids]; exact hnodup),
          nextLegit_addNext nodes a.1 a.2 (hex a (List.mem_cons_self a t)) hnodup]
      simp only [List.map_cons, List.sum_cons]
      ring

theorem nextAtk_forwardAll (l : List (ℕ × Mix)) (nodes : List Node)
    (hex : ∀ t ∈ l, ∃ n ∈ nodes, n.id = t.1)
    (hnodup : (nodes.map (fun n => n.id)).Nodup) :
    nextAtk (forwardAll nodes l) = nextAtk nodes + (l.map (fun t => t.2.atk)).sum := by
  induction l generalizing nodes with
  | nil => simp [forwardAll]
  | cons a t ih =>
      show nextAtk (forwardAll (addNext nodes a.1 a.2) t) = _
      rw [ih (addNext nodes a.1 a.2)
            (fun u hu => exists_id_addNext nodes a.1 u.1 a.2 (hex u (List.mem_cons_of_mem a hu)))
            (by rw [addNext_ids]; exact hnodup),
          nextAtk_addNext nodes a.1 a.2 (hex a (List.mem_cons_self a t)) hnodup]
      simp only [List.map_cons, List.sum_cons]
      ring

theorem forwardAll_ids (l : List (ℕ × Mix)) (nodes : List Node) :
    (forwardAll nodes l).map (fun n => n.id) = nodes.map (fun n => n.id) := by
  induction l generalizing nodes with
  | nil => rfl
  | cons a t ih =>
      show (forwardAll (addNext nodes a.1 a.2) t).map _ = _
      rw [ih, addNext_ids]

end CloudSim

namespace CloudSim

theorem lbWeight_pos (algo : LBAlgo) (c : Node) : 0 < lbWeight algo c := by
  cases algo with
  | random => norm_num [lbWeight]
  | roundRobin => norm_num [lbWeight]
  | weightedRoundRobin =>
      cases h : c.tier with
      | none => norm_num [lbWeight, h]
      | some t => cases t <;> norm_num [lbWeight, h, computeCapacity]
  | leastConnection =>
      have h1 : (0:ℚ) < max 1 (100 - c.currentLoad) :=
        lt_of_lt_of_le one_pos (le_max_left _ _)
      simpa [lbWeight] using pow_pos h1 2
  | weightedLeastConnection =>
      have h1 : (0:ℚ) < max (1/100) ((100 - c.currentLoad) / 100) :=
        lt_of_lt_of_le (by norm_num) (le_max_left _ _)
      have h2 : (0:ℚ) < (match c.tier with
        | some t => computeCapacity t
        | none => 100) := by
        cases c.tier with
        | none => norm_num
        | some t => cases t <;> norm_num [computeCapacity]
      simpa [lbWeight] using mul_pos h2 h1
  | leastResponseTime =>
      have h1 : (0:ℚ) < max 1 (5 + 20 * (c.currentLoad / 100) +
          (if 85/100 < c.currentLoad / 100 then
            (c.currentLoad / 100 * 10 - 85/10) ^ 3 * 10 else 0)) :=
        lt_of_lt_of_le one_pos (le_max_left _ _)
      simpa [lbWeight] using div_pos (by norm_num : (0:ℚ) < 1000) h1

theorem lbStep_nodes (ctx : Ctx) (algo : LBAlgo) (node : Node)
    (tw td web dbRead dbWrite dbSearch atk : ℚ) (s : SimState) (kt : ℕ × ℕ × ℚ) :
    (lbStep ctx algo node tw td web dbRead dbWrite dbSearch atk s kt).nodes =
      addNext s.nodes kt.2.1
        (let r0 := kt.2.2 / tw
         let r := if algo = .random then
             max 0 (r0 + r0 * ((ctx.jitter node.id kt.1 - 1/2) * (1/2)))
           else r0
         ⟨web * r, dbRead * r, dbWrite * r, dbSearch * r, 0, atk * r⟩) := by
  simp only [lbStep]
  split
  · split <;> rfl
  · rfl

theorem lbStep_frame (ctx : Ctx) (algo : LBAlgo) (node : Node)
    (tw td web dbRead dbWrite dbSearch atk : ℚ) (s : SimState) (kt : ℕ × ℕ × ℚ) :
    (lbStep ctx algo node tw td web dbRead dbWrite dbSearch atk s kt).codes = s.codes ∧
    (lbStep ctx algo node tw td web dbRead dbWrite dbSearch atk s kt).tallies = s.tallies ∧
    (lbStep ctx algo node tw td web dbRead dbWrite dbSearch atk s kt).edges = s.edges ∧
    (lbStep ctx algo node tw td web dbRead dbWrite dbSearch atk s kt).latCount = s.latCount ∧
    (lbStep ctx algo node tw td web dbRead dbWrite dbSearch atk s kt).maxLoadFactor =
      s.maxLoadFactor ∧
    (lbStep ctx algo node tw td web dbRead dbWrite dbSearch atk s kt).trafficMoved =
      s.trafficMoved := by
  simp only [lbStep]
  split
  · split <;> exact ⟨rfl, rfl, rfl, rfl, rfl, rfl⟩
  · exact ⟨rfl, rfl, rfl, rfl, rfl, rfl⟩

theorem foldl_lbStep_frame (ctx : Ctx) (algo : LBAlgo) (node : Node)
    (tw td web dbRead dbWrite dbSearch atk : ℚ) (l : List (ℕ × ℕ × ℚ)) (s : SimState) :
    (l.foldl (lbStep ctx algo node tw td web dbRead dbWrite dbSearch atk) s).codes =
      s.codes ∧
    (l.foldl (lbStep ctx algo node tw td web dbRead dbWrite dbSearch atk) s).tallies =
      s.tallies ∧
    (l.foldl (lbStep ctx algo node tw td web dbRead dbWrite dbSearch atk) s).edges =
      s.edges ∧
    (l.foldl (lbStep ctx algo node tw td web dbRead dbWrite dbSearch atk) s).latCount =
      s.latCount := by
  induction l generalizing s with
  | nil => exact ⟨rfl, rfl, rfl, rfl⟩
  | cons a t ih =>
      simp only [List.foldl_cons]
      have h1 := lbStep_frame ctx algo node tw td web dbRead dbWrite dbSearch atk s a
      have h2 := ih (lbStep ctx algo node tw td web dbRead dbWrite dbSearch atk s a)
      exact ⟨h2.1.trans h1.1, h2.2.1.trans h1.2.1, h2.2.2.1.trans h1.2.2.1,
        h2.2.2.2.trans h1.2.2.2.1⟩

theorem lbStep_ids (ctx : Ctx) (algo : LBAlgo) (node : Node)
    (tw td web dbRead dbWrite dbSearch atk : ℚ) (s : SimState) (kt : ℕ × ℕ × ℚ) :
    (lbStep ctx algo node tw td web dbRead dbWrite dbSearch atk s kt).nodes.map
      (fun n => n.id) = s.nodes.map (fun n => n.id) := by
  rw [lbStep_nodes, addNext_ids]

theorem lbStep_nextLegit (ctx : Ctx) (algo : LBAlgo) (node : Node)
    (tw td web dbRead dbWrite dbSearch atk : ℚ) (s : SimState) (kt : ℕ × ℕ × ℚ)
    (halgo : algo ≠ .random)
    (hex : ∃ n ∈ s.nodes, n.id = kt.2.1)
    (hnodup : (s.nodes.map (fun n => n.id)).Nodup) :
    nextLegit (lbStep ctx algo node tw td web dbRead dbWrite dbSearch atk s kt).nodes =
      nextLegit s.nodes + (web + dbRead + dbWrite + dbSearch) * (kt.2.2 / tw) := by
  rw [lbStep_nodes]
  simp only [if_neg halgo]
  rw [nextLegit_addNext _ _ _ hex hnodup]
  simp only [Mix.legit]
  ring

theorem lbStep_nextAtk (ctx : Ctx) (algo : LBAlgo) (node : Node)
    (tw td web dbRead dbWrite dbSearch atk : ℚ) (s : SimState) (kt : ℕ × ℕ × ℚ)
    (halgo : algo ≠ .random)
    (hex : ∃ n ∈ s.nodes, n.id = kt.2.1)
    (hnodup : (s.nodes.map (fun n => n.id)).Nodup) :
    nextAtk (lbStep ctx algo node tw td web dbRead dbWrite dbSearch atk s kt).nodes =
      nextAtk s.nodes + atk * (kt.2.2 / tw) := by
  rw [lbStep_nodes]
  simp only [if_neg halgo]
  rw [nextAtk_addNext _ _ _ hex hnodup]

theorem foldl_lbStep_nextLegit (ctx : Ctx) (algo : LBAlgo) (node : Node)
    (tw td web dbRead dbWrite dbSearch atk : ℚ) (l : List (ℕ × ℕ × ℚ)) (s : SimState)
    (halgo : algo ≠ .random)
    (hex : ∀ kt ∈ l, ∃ n ∈ s.nodes, n.id = kt.2.1)
    (hnodup : (s.nodes.map (fun n => n.id)).Nodup) :
    nextLegit (l.foldl (lbStep ctx algo node tw td web dbRead dbWrite dbSearch atk)
        s).nodes =
      nextLegit s.nodes +
        (web + dbRead + dbWrite + dbSearch) * ((l.map (fun kt => kt.2.2)).sum / tw) := by
  induction l generalizing s with
  | nil => simp
  | cons a t ih =>
      simp only [List.foldl_cons, List.map_cons, List.sum_cons]
      set s1 := lbStep ctx algo node tw td web dbRead dbWrite dbSearch atk s a with hs1
      have hids := lbStep_ids ctx algo node tw td web dbRead dbWrite dbSearch atk s a
      rw [ih s1 (fun kt hkt => by
            rcases hex kt (List.mem_cons_of_mem a hkt) with ⟨n, hn, hid⟩
            rw [hs1, lbStep_nodes]
            exact exists_id_addNext _ _ _ _ ⟨n, hn, hid⟩)
          (by rw [hids]; exact hnodup)]
      rw [lbStep_nextLegit ctx algo node tw td web dbRead dbWrite dbSearch atk s a halgo
          (hex a (List.mem_cons_self a t)) hnodup]
      ring

theorem foldl_lbStep_nextAtk (ctx : Ctx) (algo : LBAlgo) (node : Node)
    (tw td web dbRead dbWrite dbSearch atk : ℚ) (l : List (ℕ × ℕ × ℚ)) (s : SimState)
    (halgo : algo ≠ .random)
    (hex : ∀ kt ∈ l, ∃ n ∈ s.nodes, n.id = kt.2.1)
    (hnodup : (s.nodes.map (fun n => n.id)).Nodup) :
    nextAtk (l.foldl (lbStep ctx algo node tw td web dbRead dbWrite dbSearch atk)
        s).nodes =
      nextAtk s.nodes + atk * ((l.map (fun kt => kt.2.2)).sum / tw) := by
  induction l generalizing s with
  | nil => simp
  | cons a t ih =>
      simp only [List.foldl_cons, List.map_cons, List.sum_cons]
      set s1 := lbStep ctx algo node tw td web dbRead dbWrite dbSearch atk s a with hs1
      have hids := lbStep_ids ctx algo node tw td web dbRead dbWrite dbSearch atk s a
      rw [ih s1 (fun kt hkt => by
            rcases hex kt (List.mem_cons_of_mem a hkt) with ⟨n, hn, hid⟩
            rw [hs1, lbStep_nodes]
            exact exists_id_addNext _ _ _ _ ⟨n, hn, hid⟩)
          (by rw [hids]; exact hnodup)]
      rw [lbStep_nextAtk ctx algo node tw td web dbRead dbWrite dbSearch atk s a halgo
          (hex a (List.mem_cons_self a t)) hnodup]
      ring

end CloudSim

namespace CloudSim

theorem az_addNext {nodes : List Node} {id : ℕ} {d : Mix} {a : ℕ}
    (haz : ∀ n ∈ nodes, n.az = a) :
    ∀ n' ∈ addNext nodes id d, n'.az = a := by
  intro n' h
  rcases mem_addNext h with ⟨n, hn, rfl⟩ | hmem
  · exact haz n hn
  · exact haz n' hmem

theorem lbStep_latAcc_of_az (ctx : Ctx) (algo : LBAlgo) (node : Node)
    (tw td web dbRead dbWrite dbSearch atk : ℚ) (s : SimState) (kt : ℕ × ℕ × ℚ)
    (haz : ∀ n ∈ s.nodes, n.az = node.az) :
    (lbStep ctx algo node tw td web dbRead dbWrite dbSearch atk s kt).latAcc =
      s.latAcc := by
  simp only [lbStep]
  split
  · rename_i tn hf
    rw [if_neg]
    intro hne
    exact hne (az_addNext haz tn (List.mem_of_find?_eq_some hf))
  · rfl

theorem foldl_lbStep_latAcc_of_az (ctx : Ctx) (algo : LBAlgo) (node : Node)
    (tw td web dbRead dbWrite dbSearch atk : ℚ) (l : List (ℕ × ℕ × ℚ)) (s : SimState)
    (haz : ∀ n ∈ s.nodes, n.az = node.az) :
    (l.foldl (lbStep ctx algo node tw td web dbRead dbWrite dbSearch atk) s).latAcc =
      s.latAcc := by
  induction l generalizing s with
  | nil => rfl
  | cons a t ih =>
      simp only [List.foldl_cons]
      rw [ih _ (by
        intro n' h
        rw [lbStep_nodes] at h
        exact az_addNext haz n' h)]
      exact lbStep_latAcc_of_az ctx algo node tw td web dbRead dbWrite dbSearch atk s a haz

theorem enum_snd_sum (targets : List (ℕ × ℚ)) :
    (targets.enum.map (fun kt => kt.2.2)).sum = (targets.map (fun t => t.2)).sum := by
  have h : (fun kt : ℕ × ℕ × ℚ => kt.2.2) =
      (fun t : ℕ × ℚ => t.2) ∘ (fun kt : ℕ × ℕ × ℚ => kt.2) := rfl
  rw [h, ← List.map_map, List.enum_map_snd]

theorem mem_enum_snd {targets : List (ℕ × ℚ)} {kt : ℕ × ℕ × ℚ}
    (h : kt ∈ targets.enum) : kt.2 ∈ targets := by
  have := List.mem_map_of_mem Prod.snd h
  rwa [List.enum_map_snd] at this

theorem lbDistribute_pos (ctx : Ctx) (algo : LBAlgo) (node : Node)
    (targets : List (ℕ × ℚ)) (web dbRead dbWrite dbSearch atk : ℚ) (st : SimState)
    (halgo : algo ≠ .random)
    (hW : 0 < (targets.map (fun t => t.2)).sum)
    (hex : ∀ t ∈ targets, ∃ n ∈ st.nodes, n.id = t.1)
    (hnodup : (st.nodes.map (fun n => n.id)).Nodup) :
    (lbDistribute ctx algo node targets web dbRead dbWrite dbSearch atk st).codes =
      st.codes ∧
    (lbDistribute ctx algo node targets web dbRead dbWrite dbSearch atk st).tallies =
      st.tallies ∧
    nextLegit (lbDistribute ctx algo node targets web dbRead dbWrite dbSearch atk
        st).nodes = nextLegit st.nodes + (web + dbRead + dbWrite + dbSearch) ∧
    nextAtk (lbDistribute ctx algo node targets web dbRead dbWrite dbSearch atk
        st).nodes = nextAtk st.nodes + atk := by
  simp only [lbDistribute]
  rw [if_pos hW]
  have hfr := foldl_lbStep_frame ctx algo node
    ((targets.map (fun t => t.2)).sum) (web + dbRead + dbWrite + dbSearch + atk)
    web dbRead dbWrite dbSearch atk targets.enum st
  refine ⟨hfr.1, hfr.2.1, ?_, ?_⟩
  · rw [foldl_lbStep_nextLegit ctx algo node _ _ web dbRead dbWrite dbSearch atk
        targets.enum st halgo
        (fun kt hkt => hex kt.2 (mem_enum_snd hkt)) hnodup]
    rw [enum_snd_sum, div_self (ne_of_gt hW), mul_one]
  · rw [foldl_lbStep_nextAtk ctx algo node _ _ web dbRead dbWrite dbSearch atk
        targets.enum st halgo
        (fun kt hkt => hex kt.2 (mem_enum_snd hkt)) hnodup]
    rw [enum_snd_sum, div_self (ne_of_gt hW), mul_one]

theorem lbDistribute_latAcc_of_az (ctx : Ctx) (algo : LBAlgo) (node : Node)
    (targets : List (ℕ × ℚ)) (web dbRead dbWrite dbSearch atk : ℚ) (st : SimState)
    (haz : ∀ n ∈ st.nodes, n.az = node.az) :
    (lbDistribute ctx algo node targets web dbRead dbWrite dbSearch atk st).latAcc =
      st.latAcc := by
  simp only [lbDistribute]
  split
  · exact foldl_lbStep_latAcc_of_az ctx algo node _ _ web dbRead dbWrite dbSearch atk
      targets.enum st haz
  · rfl

end CloudSim

namespace CloudSim

theorem hasId_iff {nodes : List Node} {tid : ℕ} :
    (∃ n ∈ nodes, n.id = tid) ↔ tid ∈ nodes.map (fun n => n.id) := by
  rw [List.mem_map]

theorem childIsKind_exists {nodes : List Node} {k : NodeKind} {tid : ℕ}
    (h : childIsKind nodes k tid = true) : ∃ n ∈ nodes, n.id = tid := by
  unfold childIsKind at h
  cases hf : findNode nodes tid with
  | none => rw [hf] at h; exact absurd h (by simp)
  | some c =>
      refine ⟨c, List.mem_of_find?_eq_some hf, ?_⟩
      have := List.find?_some hf
      exact beq_iff_eq.mp this

theorem childIsSql_exists {nodes : List Node} {r : DbRole} {tid : ℕ}
    (h : childIsSql nodes r tid = true) : ∃ n ∈ nodes, n.id = tid := by
  unfold childIsSql at h
  cases hf : findNode nodes tid with
  | none => rw [hf] at h; exact absurd h (by simp)
  | some c =>
      refine ⟨c, List.mem_of_find?_eq_some hf, ?_⟩
      have := List.find?_some hf
      exact beq_iff_eq.mp this

theorem find?_childIsKind_exists {nodes : List Node} {k : NodeKind}
    {ids : List ℕ} {tid : ℕ} (h : ids.find? (childIsKind nodes k) = some tid) :
    ∃ n ∈ nodes, n.id = tid :=
  childIsKind_exists (List.find?_some h)

theorem find?_childIsSql_exists {nodes : List Node} {r : DbRole}
    {ids : List ℕ} {tid : ℕ} (h : ids.find? (childIsSql nodes r) = some tid) :
    ∃ n ∈ nodes, n.id = tid :=
  childIsSql_exists (List.find?_some h)

theorem ids_upd_flag (nodes : List Node) (id : ℕ) (b : Bool) :
    (updateNode nodes id (fun n => { n with hasStorageConnection := b })).map (fun n => n.id) = nodes.map (fun n => n.id) :=
  updateNode_map_proj (fun n => n.id) nodes id _ (fun n => rfl)

theorem legit_upd_flag (nodes : List Node) (id : ℕ) (b : Bool) :
    nextLegit (updateNode nodes id (fun n => { n with hasStorageConnection := b })) = nextLegit nodes :=
  nextLegit_updateNode nodes id _ (fun n => rfl)

theorem atk_upd_flag (nodes : List Node) (id : ℕ) (b : Bool) :
    nextAtk (updateNode nodes id (fun n => { n with hasStorageConnection := b })) = nextAtk nodes :=
  nextAtk_updateNode nodes id _ (fun n => rfl)

theorem az_upd_flag (nodes : List Node) (id : ℕ) (b : Bool) :
    (updateNode nodes id (fun n => { n with hasStorageConnection := b })).map (fun n => n.az) = nodes.map (fun n => n.az) :=
  updateNode_map_proj (fun n => n.az) nodes id _ (fun n => rfl)

theorem rate_upd_flag (nodes : List Node) (id : ℕ) (b : Bool) :
    (updateNode nodes id (fun n => { n with hasStorageConnection := b })).map (fun n => n.cacheHitRate) = nodes.map (fun n => n.cacheHitRate) :=
  updateNode_map_proj (fun n => n.cacheHitRate) nodes id _ (fun n => rfl)

theorem ids_upd_cdnServed (nodes : List Node) (id : ℕ) (v r : ℚ) :
    (updateNode nodes id (fun n => { n with totalServed := v, cacheHitRate := r })).map (fun n => n.id) = nodes.map (fun n => n.id) :=
  updateNode_map_proj (fun n => n.id) nodes id _ (fun n => rfl)

theorem legit_upd_cdnServed (nodes : List Node) (id : ℕ) (v r : ℚ) :
    nextLegit (updateNode nodes id (fun n => { n with totalServed := v, cacheHitRate := r })) = nextLegit nodes :=
  nextLegit_updateNode nodes id _ (fun n => rfl)

theorem atk_upd_cdnServed (nodes : List Node) (id : ℕ) (v r : ℚ) :
    nextAtk (updateNode nodes id (fun n => { n with totalServed := v, cacheHitRate := r })) = nextAtk nodes :=
  nextAtk_updateNode nodes id _ (fun n => rfl)

theorem az_upd_cdnServed (nodes : List Node) (id : ℕ) (v r : ℚ) :
    (updateNode nodes id (fun n => { n with totalServed := v, cacheHitRate := r })).map (fun n => n.az) = nodes.map (fun n => n.az) :=
  updateNode_map_proj (fun n => n.az) nodes id _ (fun n => rfl)

theorem ids_upd_pressureAdd (nodes : List Node) (id : ℕ) (q : ℚ) :
    (updateNode nodes id (fun n => { n with invalidationPressure := n.invalidationPressure + q })).map (fun n => n.id) = nodes.map (fun n => n.id) :=
  updateNode_map_proj (fun n => n.id) nodes id _ (fun n => rfl)

theorem legit_upd_pressureAdd (nodes : List Node) (id : ℕ) (q : ℚ) :
    nextLegit (updateNode nodes id (fun n => { n with invalidationPressure := n.invalidationPressure + q })) = nextLegit nodes :=
  nextLegit_updateNode nodes id _ (fun n => rfl)

theorem atk_upd_pressureAdd (nodes : List Node) (id : ℕ) (q : ℚ) :
    nextAtk (updateNode nodes id (fun n => { n with invalidationPressure := n.invalidationPressure + q })) = nextAtk nodes :=
  nextAtk_updateNode nodes id _ (fun n => rfl)

theorem az_upd_pressureAdd (nodes : List Node) (id : ℕ) (q : ℚ) :
    (updateNode nodes id (fun n => { n with invalidationPressure := n.invalidationPressure + q })).map (fun n => n.az) = nodes.map (fun n => n.az) :=
  updateNode_map_proj (fun n => n.az) nodes id _ (fun n => rfl)

theorem rate_upd_pressureAdd (nodes : List Node) (id : ℕ) (q : ℚ) :
    (updateNode nodes id (fun n => { n with invalidationPressure := n.invalidationPressure + q })).map (fun n => n.cacheHitRate) = nodes.map (fun n => n.cacheHitRate) :=
  updateNode_map_proj (fun n => n.cacheHitRate) nodes id _ (fun n => rfl)

theorem ids_upd_servedAdd (nodes : List Node) (id : ℕ) (q : ℚ) :
    (updateNode nodes id (fun n => { n with totalServed := n.totalServed + q })).map (fun n => n.id) = nodes.map (fun n => n.id) :=
  updateNode_map_proj (fun n => n.id) nodes id _ (fun n => rfl)

theorem legit_upd_servedAdd (nodes : List Node) (id : ℕ) (q : ℚ) :
    nextLegit (updateNode nodes id (fun n => { n with totalServed := n.totalServed + q })) = nextLegit nodes :=
  nextLegit_updateNode nodes id _ (fun n => rfl)

theorem atk_upd_servedAdd (nodes : List Node) (id : ℕ) (q : ℚ) :
    nextAtk (updateNode nodes id (fun n => { n with totalServed := n.totalServed + q })) = nextAtk nodes :=
  nextAtk_updateNode nodes id _ (fun n => rfl)

theorem az_upd_servedAdd (nodes : List Node) (id : ℕ) (q : ℚ) :
    (updateNode nodes id (fun n => { n with totalServed := n.totalServed + q })).map (fun n => n.az) = nodes.map (fun n => n.az) :=
  updateNode_map_proj (fun n => n.az) nodes id _ (fun n => rfl)

theorem rate_upd_servedAdd (nodes : List Node) (id : ℕ) (q : ℚ) :
    (updateNode nodes id (fun n => { n with totalServed := n.totalServed + q })).map (fun n => n.cacheHitRate) = nodes.map (fun n => n.cacheHitRate) :=
  updateNode_map_proj (fun n => n.cacheHitRate) nodes id _ (fun n => rfl)

theorem ids_upd_bufCur (nodes : List Node) (id : ℕ) (m : Mix) :
    (updateNode nodes id (fun n => { n with bufCur := m })).map (fun n => n.id) = nodes.map (fun n => n.id) :=
  updateNode_map_proj (fun n => n.id) nodes id _ (fun n => rfl)

theorem legit_upd_bufCur (nodes : List Node) (id : ℕ) (m : Mix) :
    nextLegit (updateNode nodes id (fun n => { n with bufCur := m })) = nextLegit nodes :=
  nextLegit_updateNode nodes id _ (fun n => rfl)

theorem atk_upd_bufCur (nodes : List Node) (id : ℕ) (m : Mix) :
    nextAtk (updateNode nodes id (fun n => { n with bufCur := m })) = nextAtk nodes :=
  nextAtk_updateNode nodes id _ (fun n => rfl)

theorem az_upd_bufCur (nodes : List Node) (id : ℕ) (m : Mix) :
    (updateNode nodes id (fun n => { n with bufCur := m })).map (fun n => n.az) = nodes.map (fun n => n.az) :=
  updateNode_map_proj (fun n => n.az) nodes id _ (fun n => rfl)

theorem rate_upd_bufCur (nodes : List Node) (id : ℕ) (m : Mix) :
    (updateNode nodes id (fun n => { n with bufCur := m })).map (fun n => n.cacheHitRate) = nodes.map (fun n => n.cacheHitRate) :=
  updateNode_map_proj (fun n => n.cacheHitRate) nodes id _ (fun n => rfl)

theorem rate_addNext (nodes : List Node) (id : ℕ) (d : Mix) :
    (addNext nodes id d).map (fun n => n.cacheHitRate) =
      nodes.map (fun n => n.cacheHitRate) :=
  updateNode_map_proj (fun n => n.cacheHitRate) nodes id _ (fun n => rfl)

theorem az_addNext_map (nodes : List Node) (id : ℕ) (d : Mix) :
    (addNext nodes id d).map (fun n => n.az) = nodes.map (fun n => n.az) :=
  updateNode_map_proj (fun n => n.az) nodes id _ (fun n => rfl)

theorem all_proj_of_map_eq {α : Type} (p : α → Prop) (proj : Node → α)
    {L L' : List Node} (hmap : L'.map proj = L.map proj)
    (h : ∀ n ∈ L, p (proj n)) : ∀ n' ∈ L', p (proj n') := by
  intro n' hn'
  have hmem : proj n' ∈ L'.map proj := List.mem_map_of_mem proj hn'
  rw [hmap] at hmem
  rcases List.mem_map.mp hmem with ⟨n, hn, heq⟩
  rw [← heq]
  exact h n hn


theorem legit_upd_cacheSet (nodes : List Node) (id : ℕ) (r q : ℚ) :
    nextLegit (updateNode nodes id (fun n =>
      let n := { n with invalidationPressure := 0, cacheHitRate := r }
      if 0 < r ∧ 0 < q then
        let estimated := q / r
        if n.processedReqs < estimated then { n with processedReqs := estimated } else n
      else n)) = nextLegit nodes :=
  nextLegit_updateNode nodes id _
    (fun n => by dsimp only; split <;> first | (split <;> rfl) | rfl)

theorem atk_upd_cacheSet (nodes : List Node) (id : ℕ) (r q : ℚ) :
    nextAtk (updateNode nodes id (fun n =>
      let n := { n with invalidationPressure := 0, cacheHitRate := r }
      if 0 < r ∧ 0 < q then
        let estimated := q / r
        if n.processedReqs < estimated then { n with processedReqs := estimated } else n
      else n)) = nextAtk nodes :=
  nextAtk_updateNode nodes id _
    (fun n => by dsimp only; split <;> first | (split <;> rfl) | rfl)

theorem ids_upd_cacheSet (nodes : List Node) (id : ℕ) (r q : ℚ) :
    (updateNode nodes id (fun n =>
      let n := { n with invalidationPressure := 0, cacheHitRate := r }
      if 0 < r ∧ 0 < q then
        let estimated := q / r
        if n.processedReqs < estimated then { n with processedReqs := estimated } else n
      else n)).map (fun n => n.id) = nodes.map (fun n => n.id) :=
  updateNode_map_proj (fun n => n.id) nodes id _
    (fun n => by dsimp only; split <;> first | (split <;> rfl) | rfl)

theorem az_upd_cacheSet (nodes : List Node) (id : ℕ) (r q : ℚ) :
    (updateNode nodes id (fun n =>
      let n := { n with invalidationPressure := 0, cacheHitRate := r }
      if 0 < r ∧ 0 < q then
        let estimated := q / r
        if n.processedReqs < estimated then { n with processedReqs := estimated } else n
      else n)).map (fun n => n.az) = nodes.map (fun n => n.az) :=
  updateNode_map_proj (fun n => n.az) nodes id _
    (fun n => by dsimp only; split <;> first | (split <;> rfl) | rfl)

theorem proj_upd_const {α : Type} (proj : Node → α) (nodes : List Node)
    (node3 : Node) (id : ℕ)
    (h : ∀ n ∈ nodes, n.id = id → proj node3 = proj n) :
    (updateNode nodes id (fun _ => node3)).map proj = nodes.map proj := by
  unfold updateNode
  rw [List.map_map]
  apply List.map_congr_left
  intro n hn
  by_cases hc : (n.id == id) = true
  · simp only [Function.comp_apply, if_pos hc]
    exact h n hn (beq_iff_eq.mp hc)
  · simp only [Function.comp_apply, if_neg hc]

theorem legit_upd_const (nodes : List Node) (node3 : Node) (id : ℕ)
    (h : ∀ n ∈ nodes, n.id = id → node3.bufNext = n.bufNext) :
    nextLegit (updateNode nodes id (fun _ => node3)) = nextLegit nodes := by
  unfold nextLegit
  have hm := proj_upd_const (fun n => n.bufNext.legit) nodes node3 id
    (fun n hn hid => by simp only [h n hn hid])
  rw [hm]

theorem atk_upd_const (nodes : List Node) (node3 : Node) (id : ℕ)
    (h : ∀ n ∈ nodes, n.id = id → node3.bufNext = n.bufNext) :
    nextAtk (updateNode nodes id (fun _ => node3)) = nextAtk nodes := by
  unfold nextAtk
  have hm := proj_upd_const (fun n => n.bufNext.atk) nodes node3 id
    (fun n hn hid => by simp only [h n hn hid])
  rw [hm]

theorem eq_of_mem_id {nodes : List Node} {node : Node}
    (hmem : node ∈ nodes) (hnodup : (nodes.map (fun n => n.id)).Nodup)
    {n : Node} (hn : n ∈ nodes) (hid : n.id = node.id) : n = node :=
  List.inj_on_of_nodup_map hnodup hn hmem hid

theorem az_forwardAll (l : List (ℕ × Mix)) (nodes : List Node) :
    (forwardAll nodes l).map (fun n => n.az) = nodes.map (fun n => n.az) := by
  induction l generalizing nodes with
  | nil => rfl
  | cons a t ih =>
      show (forwardAll (addNext nodes a.1 a.2) t).map _ = _
      rw [ih, az_addNext_map]

theorem rate_forwardAll (l : List (ℕ × Mix)) (nodes : List Node) :
    (forwardAll nodes l).map (fun n => n.cacheHitRate) =
      nodes.map (fun n => n.cacheHitRate) := by
  induction l generalizing nodes with
  | nil => rfl
  | cons a t ih =>
      show (forwardAll (addNext nodes a.1 a.2) t).map _ = _
      rw [ih, rate_addNext]

end CloudSim

namespace CloudSim

theorem routeCdn_balance (st : SimState) (node : Node)
    (web dbRead dbWrite dbSearch stat atk : ℚ)
    (hnodup : (st.nodes.map (fun n => n.id)).Nodup) (hs : 0 ≤ stat) :
    legitAccount (routeCdn st node web dbRead dbWrite dbSearch stat atk) =
      legitAccount st + (web + dbRead + dbWrite + dbSearch + stat) := by
  simp only [routeCdn]
  split
  · simp only [legitAccount, Tallies.sucSum, Tallies.failSum, Tallies.addFail,
      legit_upd_flag]
    ring
  · rename_i sid hf
    have hex0 : ∃ n ∈ st.nodes, n.id = sid := find?_childIsKind_exists hf
    by_cases hstat : 0 < stat
    · rw [if_pos hstat]
      split
      · rename_i t hft
        split
        · simp only [legitAccount, Tallies.sucSum, Tallies.failSum, Tallies.addFail]
          rw [nextLegit_addNext _ _ _
              (by rw [hasId_iff]
                  simp only [ids_upd_flag, ids_upd_cdnServed, addNext_ids]
                  rw [← hasId_iff]; exact hex0)
              (by simp only [ids_upd_flag, ids_upd_cdnServed, addNext_ids]
                  exact hnodup)]
          simp only [legit_upd_cdnServed]
          rw [nextLegit_addNext _ _ _
              (by rw [hasId_iff]; simp only [ids_upd_flag]
                  rw [← hasId_iff]; exact hex0)
              (by simp only [ids_upd_flag]; exact hnodup)]
          simp only [legit_upd_flag, Mix.legit]
          ring
        · simp only [legitAccount, Tallies.sucSum, Tallies.failSum, Tallies.addFail]
          rw [nextLegit_addNext _ _ _
              (by rw [hasId_iff]
                  simp only [ids_upd_flag, ids_upd_cdnServed, addNext_ids]
                  rw [← hasId_iff]; exact hex0)
              (by simp only [ids_upd_flag, ids_upd_cdnServed, addNext_ids]
                  exact hnodup)]
          simp only [legit_upd_cdnServed]
          rw [nextLegit_addNext _ _ _
              (by rw [hasId_iff]; simp only [ids_upd_flag]
                  rw [← hasId_iff]; exact hex0)
              (by simp only [ids_upd_flag]; exact hnodup)]
          simp only [legit_upd_flag, Mix.legit]
          ring
      · simp only [legitAccount, Tallies.sucSum, Tallies.failSum, Tallies.addFail]
        rw [nextLegit_addNext _ _ _
            (by rw [hasId_iff]
                simp only [ids_upd_flag, ids_upd_cdnServed, addNext_ids]
                rw [← hasId_iff]; exact hex0)
            (by simp only [ids_upd_flag, ids_upd_cdnServed, addNext_ids]
                exact hnodup)]
        simp only [legit_upd_cdnServed]
        rw [nextLegit_addNext _ _ _
            (by rw [hasId_iff]; simp only [ids_upd_flag]
                rw [← hasId_iff]; exact hex0)
            (by simp only [ids_upd_flag]; exact hnodup)]
        simp only [legit_upd_flag, Mix.legit]
        ring
    · have hstat0 : stat = 0 := le_antisymm (not_lt.mp hstat) hs
      rw [if_neg hstat]
      simp only [legitAccount, Tallies.sucSum, Tallies.failSum, Tallies.addFail]
      rw [nextLegit_addNext _ _ _
          (by rw [hasId_iff]; simp only [ids_upd_flag]
              rw [← hasId_iff]; exact hex0)
          (by simp only [ids_upd_flag]; exact hnodup)]
      simp only [legit_upd_flag, Mix.legit, hstat0]
      ring

end CloudSim

namespace CloudSim

theorem list_sum_map_const (l : List ℕ) (c : ℚ) :
    (l.map (fun _ => c)).sum = l.length * c := by
  induction l with
  | nil => simp
  | cons a t ih =>
      simp only [List.map_cons, List.sum_cons, List.length_cons, ih]
      push_cast
      ring

theorem hex_map_pair {nodes : List Node} {targets : List ℕ} {g : ℕ → Mix}
    (hex : ∀ t ∈ targets, ∃ n ∈ nodes, n.id = t) :
    ∀ u ∈ targets.map (fun tid => (tid, g tid)), ∃ n ∈ nodes, n.id = u.1 := by
  intro u hu
  rcases List.mem_map.mp hu with ⟨tid, htid, rfl⟩
  exact hex tid htid

theorem share_cancel (l : List ℕ) (x : ℚ) (h : l ≠ []) :
    (l.length : ℚ) * (x * ((1 : ℚ) / l.length)) = x := by
  have hlen : (l.length : ℚ) ≠ 0 := by
    have := List.length_pos.mpr h
    positivity
  field_simp

theorem computeAtk_balance (st : SimState) (targets : List ℕ) (atk : ℚ)
    (hex : ∀ t ∈ targets, ∃ n ∈ st.nodes, n.id = t)
    (hnodup : (st.nodes.map (fun n => n.id)).Nodup) :
    legitAccount (computeAtk st targets atk) = legitAccount st := by
  simp only [computeAtk]
  split
  · split
    · simp only [legitAccount]
      rw [nextLegit_forwardAll _ _ (hex_map_pair hex) hnodup]
      rw [List.map_map]
      have hz : ((fun t : ℕ × Mix => t.2.legit) ∘
          (fun tid => (tid, (⟨0, 0, 0, 0, 0, atk * ((1:ℚ) / targets.length)⟩ : Mix)))) =
          (fun _ : ℕ => (0 : ℚ)) := by
        funext tid
        simp [Mix.legit]
      rw [hz, list_sum_map_const]
      ring
    · rfl
  · rfl

theorem computeAtk_ids (st : SimState) (targets : List ℕ) (atk : ℚ) :
    (computeAtk st targets atk).nodes.map (fun n => n.id) =
      st.nodes.map (fun n => n.id) := by
  simp only [computeAtk]
  split
  · split
    · exact forwardAll_ids _ _
    · rfl
  · rfl

theorem computeAtk_rate (st : SimState) (targets : List ℕ) (atk : ℚ) :
    (computeAtk st targets atk).nodes.map (fun n => n.cacheHitRate) =
      st.nodes.map (fun n => n.cacheHitRate) := by
  simp only [computeAtk]
  split
  · split
    · exact rate_forwardAll _ _
    · rfl
  · rfl

theorem computeAtk_tallies (st : SimState) (targets : List ℕ) (atk : ℚ) :
    (computeAtk st targets atk).tallies = st.tallies ∧
    (computeAtk st targets atk).codes = st.codes ∧
    (computeAtk st targets atk).edges = st.edges := by
  simp only [computeAtk]
  split
  · split
    · exact ⟨rfl, rfl, rfl⟩
    · exact ⟨rfl, rfl, rfl⟩
  · exact ⟨rfl, rfl, rfl⟩

theorem computeSearch_balance (st : SimState) (noSqlNode : Option ℕ)
    (sqlReplicas : List ℕ) (sqlPrimary : Option ℕ) (dbSearch : ℚ)
    (hds : 0 ≤ dbSearch)
    (hex1 : ∀ nid, noSqlNode = some nid → ∃ n ∈ st.nodes, n.id = nid)
    (hex2 : ∀ t ∈ sqlReplicas, ∃ n ∈ st.nodes, n.id = t)
    (hex3 : ∀ p, sqlPrimary = some p → ∃ n ∈ st.nodes, n.id = p)
    (hnodup : (st.nodes.map (fun n => n.id)).Nodup) :
    legitAccount (computeSearch st noSqlNode sqlReplicas sqlPrimary dbSearch) =
      legitAccount st + dbSearch := by
  simp only [computeSearch]
  by_cases hpos : 0 < dbSearch
  · rw [if_pos hpos]
    cases hn : noSqlNode with
    | some nid =>
        simp only [legitAccount]
        rw [nextLegit_addNext _ _ _ (hex1 nid hn) hnodup]
        simp [Mix.legit]
        ring
    | none =>
        cases hr : sqlReplicas with
        | cons t ts =>
            simp only [legitAccount]
            rw [nextLegit_addNext _ _ _ (hex2 t (by rw [hr]; exact List.mem_cons_self t ts)) hnodup]
            simp [Mix.legit]
            ring
        | nil =>
            cases hp : sqlPrimary with
            | some p =>
                simp only [legitAccount]
                rw [nextLegit_addNext _ _ _ (hex3 p hp) hnodup]
                simp [Mix.legit]
                ring
            | none =>
                simp only [legitAccount, Tallies.sucSum, Tallies.failSum]
                ring
  · rw [if_neg hpos]
    have : dbSearch = 0 := le_antisymm (not_lt.mp hpos) hds
    rw [this, add_zero]

theorem computeSearch_ids (st : SimState) (noSqlNode : Option ℕ)
    (sqlReplicas : List ℕ) (sqlPrimary : Option ℕ) (dbSearch : ℚ) :
    (computeSearch st noSqlNode sqlReplicas sqlPrimary dbSearch).nodes.map
      (fun n => n.id) = st.nodes.map (fun n => n.id) := by
  simp only [computeSearch]
  split
  · split
    · exact addNext_ids _ _ _
    · split
      · exact addNext_ids _ _ _
      · exact addNext_ids _ _ _
      · rfl
  · rfl

theorem computeSearch_rate (st : SimState) (noSqlNode : Option ℕ)
    (sqlReplicas : List ℕ) (sqlPrimary : Option ℕ) (dbSearch : ℚ) :
    (computeSearch st noSqlNode sqlReplicas sqlPrimary dbSearch).nodes.map
      (fun n => n.cacheHitRate) = st.nodes.map (fun n => n.cacheHitRate) := by
  simp only [computeSearch]
  split
  · split
    · exact rate_addNext _ _ _
    · split
      · exact rate_addNext _ _ _
      · exact rate_addNext _ _ _
      · rfl
  · rfl

theorem computeWrite_balance (st : SimState) (sqlPrimary cacheNode : Option ℕ)
    (dbWrite : ℚ) (hdw : 0 ≤ dbWrite)
    (hex1 : ∀ p, sqlPrimary = some p → ∃ n ∈ st.nodes, n.id = p)
    (hnodup : (st.nodes.map (fun n => n.id)).Nodup) :
    legitAccount (computeWrite st sqlPrimary cacheNode dbWrite) =
      legitAccount st + dbWrite := by
  simp only [computeWrite]
  by_cases hpos : 0 < dbWrite
  · rw [if_pos hpos]
    cases hp : sqlPrimary with
    | some p =>
        cases hc : cacheNode with
        | some cid =>
            simp only [legitAccount, legit_upd_pressureAdd]
            rw [nextLegit_addNext _ _ _ (hex1 p hp) hnodup]
            simp [Mix.legit]
            ring
        | none =>
            simp only [legitAccount]
            rw [nextLegit_addNext _ _ _ (hex1 p hp) hnodup]
            simp [Mix.legit]
            ring
    | none =>
        simp only [legitAccount, Tallies.sucSum, Tallies.failSum]
        ring
  · rw [if_neg hpos]
    have : dbWrite = 0 := le_antisymm (not_lt.mp hpos) hdw
    rw [this, add_zero]

theorem computeWrite_ids (st : SimState) (sqlPrimary cacheNode : Option ℕ)
    (dbWrite : ℚ) :
    (computeWrite st sqlPrimary cacheNode dbWrite).nodes.map (fun n => n.id) =
      st.nodes.map (fun n => n.id) := by
  simp only [computeWrite]
  split
  · split
    · split
      · rw [ids_upd_pressureAdd, addNext_ids]
      · exact addNext_ids _ _ _
    · rfl
  · rfl

theorem computeWrite_rate (st : SimState) (sqlPrimary cacheNode : Option ℕ)
    (dbWrite : ℚ) :
    (computeWrite st sqlPrimary cacheNode dbWrite).nodes.map
      (fun n => n.cacheHitRate) = st.nodes.map (fun n => n.cacheHitRate) := by
  simp only [computeWrite]
  split
  · split
    · split
      · rw [rate_upd_pressureAdd, rate_addNext]
      · exact rate_addNext _ _ _
    · rfl
  · rfl

theorem computeStatic_balance (st : SimState) (storageNodes : List ℕ) (stat : ℚ)
    (hs : 0 ≤ stat)
    (hex : ∀ t ∈ storageNodes, ∃ n ∈ st.nodes, n.id = t)
    (hnodup : (st.nodes.map (fun n => n.id)).Nodup) :
    legitAccount (computeStatic st storageNodes stat) = legitAccount st + stat := by
  simp only [computeStatic]
  by_cases hpos : 0 < stat
  · rw [if_pos hpos]
    split
    · rename_i hne
      simp only [legitAccount]
      rw [nextLegit_forwardAll _ _ (hex_map_pair hex) hnodup]
      rw [List.map_map]
      have hz : ((fun t : ℕ × Mix => t.2.legit) ∘
          (fun tid => (tid, (⟨0, 0, 0, 0, stat * ((1:ℚ) / storageNodes.length), 0⟩ : Mix)))) =
          (fun _ : ℕ => stat * ((1:ℚ) / storageNodes.length)) := by
        funext tid
        simp [Mix.legit]
      rw [hz, list_sum_map_const, share_cancel storageNodes stat hne]
      ring
    · simp only [legitAccount, Tallies.sucSum, Tallies.failSum]
      ring
  · rw [if_neg hpos]
    have : stat = 0 := le_antisymm (not_lt.mp hpos) hs
    rw [this, add_zero]

theorem genericStatic_balance (st : SimState) (cdnChildren otherChildren : List ℕ)
    (stat : ℚ) (hs : 0 ≤ stat)
    (hex1 : ∀ t ∈ cdnChildren, ∃ n ∈ st.nodes, n.id = t)
    (hex2 : ∀ t ∈ otherChildren, ∃ n ∈ st.nodes, n.id = t)
    (hnodup : (st.nodes.map (fun n => n.id)).Nodup) :
    legitAccount (genericStatic st cdnChildren otherChildren stat) =
      legitAccount st + stat := by
  simp only [genericStatic]
  by_cases hpos : 0 < stat
  · rw [if_pos hpos]
    split
    · rename_i hne
      simp only [legitAccount]
      rw [nextLegit_forwardAll _ _ (hex_map_pair hex1) hnodup]
      rw [List.map_map]
      have hz : ((fun t : ℕ × Mix => t.2.legit) ∘
          (fun tid => (tid, (⟨0, 0, 0, 0, stat * ((1:ℚ) / cdnChildren.length), 0⟩ : Mix)))) =
          (fun _ : ℕ => stat * ((1:ℚ) / cdnChildren.length)) := by
        funext tid
        simp [Mix.legit]
      rw [hz, list_sum_map_const, share_cancel cdnChildren stat hne]
      ring
    · split
      · rename_i hne
        simp only [legitAccount]
        rw [nextLegit_forwardAll _ _ (hex_map_pair hex2) hnodup]
        rw [List.map_map]
        have hz : ((fun t : ℕ × Mix => t.2.legit) ∘
            (fun tid => (tid, (⟨0, 0, 0, 0, stat * ((1:ℚ) / otherChildren.length), 0⟩ : Mix)))) =
            (fun _ : ℕ => stat * ((1:ℚ) / otherChildren.length)) := by
          funext tid
          simp [Mix.legit]
        rw [hz, list_sum_map_const, share_cancel otherChildren stat hne]
        ring
      · simp only [legitAccount, Tallies.sucSum, Tallies.failSum]
        ring
  · rw [if_neg hpos]
    have : stat = 0 := le_antisymm (not_lt.mp hpos) hs
    rw [this, add_zero]

end CloudSim

namespace CloudSim

theorem computeRead_ids (st : SimState) (cacheNode : Option ℕ)
    (sqlReplicas : List ℕ) (sqlPrimary : Option ℕ) (dbRead : ℚ) :
    (computeRead st cacheNode sqlReplicas sqlPrimary dbRead).nodes.map
      (fun n => n.id) = st.nodes.map (fun n => n.id) := by
  cases cacheNode with
  | none =>
      simp only [computeRead]
      split
      · split
        · by_cases hrep : sqlReplicas ≠ []
          · rw [if_pos hrep, if_pos hrep]
            exact forwardAll_ids _ _
          · rw [if_neg hrep]
            split
            · exact forwardAll_ids _ _
            · rfl
        · rfl
      · rfl
  | some cid =>
      simp only [computeRead]
      split
      · split
        · by_cases hrep : sqlReplicas ≠ []
          · rw [if_pos hrep, if_pos hrep]
            rw [forwardAll_ids, addNext_ids, ids_upd_servedAdd]
          · rw [if_neg hrep]
            split
            · rw [forwardAll_ids, addNext_ids, ids_upd_servedAdd]
            · rw [addNext_ids, ids_upd_servedAdd]
        · rw [addNext_ids, ids_upd_servedAdd]
      · rfl

theorem computeRead_rate (st : SimState) (cacheNode : Option ℕ)
    (sqlReplicas : List ℕ) (sqlPrimary : Option ℕ) (dbRead : ℚ) :
    (computeRead st cacheNode sqlReplicas sqlPrimary dbRead).nodes.map
      (fun n => n.cacheHitRate) = st.nodes.map (fun n => n.cacheHitRate) := by
  cases cacheNode with
  | none =>
      simp only [computeRead]
      split
      · split
        · by_cases hrep : sqlReplicas ≠ []
          · rw [if_pos hrep, if_pos hrep]
            exact rate_forwardAll _ _
          · rw [if_neg hrep]
            split
            · exact rate_forwardAll _ _
            · rfl
        · rfl
      · rfl
  | some cid =>
      simp only [computeRead]
      split
      · split
        · by_cases hrep : sqlReplicas ≠ []
          · rw [if_pos hrep, if_pos hrep]
            rw [rate_forwardAll, rate_addNext, rate_upd_servedAdd]
          · rw [if_neg hrep]
            split
            · rw [rate_forwardAll, rate_addNext, rate_upd_servedAdd]
            · rw [rate_addNext, rate_upd_servedAdd]
        · rw [rate_addNext, rate_upd_servedAdd]
      · rfl

theorem computeRead_balance (st : SimState) (cacheNode : Option ℕ)
    (sqlReplicas : List ℕ) (sqlPrimary : Option ℕ) (dbRead : ℚ)
    (hd : 0 ≤ dbRead)
    (hrate : ∀ n ∈ st.nodes, n.cacheHitRate ≤ 1)
    (hexc : ∀ cid, cacheNode = some cid → ∃ n ∈ st.nodes, n.id = cid)
    (hex2 : ∀ t ∈ sqlReplicas, ∃ n ∈ st.nodes, n.id = t)
    (hex3 : ∀ p, sqlPrimary = some p → ∃ n ∈ st.nodes, n.id = p)
    (hnodup : (st.nodes.map (fun n => n.id)).Nodup) :
    legitAccount (computeRead st cacheNode sqlReplicas sqlPrimary dbRead) =
      legitAccount st + dbRead := by
  by_cases hpos : 0 < dbRead
  swap
  · have h0 : dbRead = 0 := le_antisymm (not_lt.mp hpos) hd
    simp only [computeRead]
    rw [if_neg hpos, h0, add_zero]
  cases hcc : cacheNode with
  | none =>
      simp only [computeRead]
      rw [if_pos hpos]
      simp only [sub_zero]
      rw [if_pos hpos]
      by_cases hrep : sqlReplicas ≠ []
      · rw [if_pos hrep, if_pos hrep]
        simp only [legitAccount]
        rw [nextLegit_forwardAll _ _ (hex_map_pair hex2) hnodup]
        rw [List.map_map]
        have hz : ((fun t : ℕ × Mix => t.2.legit) ∘
            (fun tid => (tid, (⟨0, dbRead * ((1:ℚ) / sqlReplicas.length), 0, 0, 0, 0⟩ : Mix)))) =
            (fun _ : ℕ => dbRead * ((1:ℚ) / sqlReplicas.length)) := by
          funext tid
          simp [Mix.legit]
        rw [hz, list_sum_map_const, share_cancel sqlReplicas dbRead hrep]
        ring
      · rw [if_neg hrep]
        cases hp : sqlPrimary with
        | some p =>
            rw [if_pos (by simp : (some p).toList ≠ [])]
            simp only [legitAccount, Option.toList_some]
            rw [nextLegit_forwardAll _ _ (hex_map_pair (by
                  intro t ht
                  simp only [List.mem_singleton] at ht
                  subst ht
                  exact hex3 t hp)) hnodup]
            rw [List.map_map]
            have hz : ((fun t : ℕ × Mix => t.2.legit) ∘
                (fun tid => (tid, (⟨0, dbRead * ((1:ℚ) / (([p] : List ℕ).length : ℕ)), 0, 0, 0, 0⟩ : Mix)))) =
                (fun _ : ℕ => dbRead * ((1:ℚ) / (([p] : List ℕ).length : ℕ))) := by
              funext tid
              simp [Mix.legit]
            rw [hz, list_sum_map_const, share_cancel [p] dbRead (by simp)]
            ring
        | none =>
            rw [if_neg (by simp)]
            simp only [legitAccount, Tallies.sucSum, Tallies.failSum]
            ring
  | some cid =>
      have hrle : ((findNode st.nodes cid).map (fun c => c.cacheHitRate)).getD 0 ≤ 1 := by
        cases hf : findNode st.nodes cid with
        | none => simp
        | some c => simpa using hrate c (List.mem_of_find?_eq_some hf)
      have hrem : 0 ≤ dbRead - dbRead * ((findNode st.nodes cid).map
          (fun c => c.cacheHitRate)).getD 0 := by
        have := mul_le_of_le_one_right hd hrle
        linarith
      have hexc' := hexc cid hcc
      simp only [computeRead]
      rw [if_pos hpos]
      have hids1 : ∀ q : ℚ, (addNext (updateNode st.nodes cid
          (fun n => { n with totalServed := n.totalServed + dbRead })) cid
          ⟨0, q, 0, 0, 0, 0⟩).map (fun n => n.id) = st.nodes.map (fun n => n.id) := by
        intro q
        rw [addNext_ids, ids_upd_servedAdd]
      by_cases hr : 0 < dbRead - dbRead * ((findNode st.nodes cid).map
          (fun c => c.cacheHitRate)).getD 0
      · rw [if_pos hr]
        by_cases hrep : sqlReplicas ≠ []
        · rw [if_pos hrep, if_pos hrep]
          simp only [legitAccount]
          rw [nextLegit_forwardAll _ _ (hex_map_pair (by
                intro t ht
                rw [hasId_iff, hids1, ← hasId_iff]
                exact hex2 t ht))
              (by rw [hids1]; exact hnodup)]
          rw [List.map_map]
          have hz : ∀ q : ℚ, ((fun t : ℕ × Mix => t.2.legit) ∘
              (fun tid => (tid, (⟨0, q * ((1:ℚ) / sqlReplicas.length), 0, 0, 0, 0⟩ : Mix)))) =
              (fun _ : ℕ => q * ((1:ℚ) / sqlReplicas.length)) := by
            intro q
            funext tid
            simp [Mix.legit]
          rw [hz, list_sum_map_const, share_cancel sqlReplicas _ hrep]
          rw [nextLegit_addNext _ _ _ (by
                rw [hasId_iff, ids_upd_servedAdd, ← hasId_iff]; exact hexc')
              (by rw [ids_upd_servedAdd]; exact hnodup)]
          simp only [legit_upd_servedAdd, Mix.legit]
          ring
        · rw [if_neg hrep]
          cases hp : sqlPrimary with
          | some p =>
              rw [if_pos (by simp : (some p).toList ≠ [])]
              simp only [legitAccount, Option.toList_some]
              rw [nextLegit_forwardAll _ _ (hex_map_pair (by
                    intro t ht
                    simp only [List.mem_singleton] at ht
                    subst ht
                    rw [hasId_iff, hids1, ← hasId_iff]
                    exact hex3 t hp))
                  (by rw [hids1]; exact hnodup)]
              rw [List.map_map]
              have hz : ∀ q : ℚ, ((fun t : ℕ × Mix => t.2.legit) ∘
                  (fun tid => (tid, (⟨0, q * ((1:ℚ) / (([p] : List ℕ).length : ℕ)), 0, 0, 0, 0⟩ : Mix)))) =
                  (fun _ : ℕ => q * ((1:ℚ) / (([p] : List ℕ).length : ℕ))) := by
                intro q
                funext tid
                simp [Mix.legit]
              rw [hz, list_sum_map_const, share_cancel [p] _ (by simp)]
              rw [nextLegit_addNext _ _ _ (by
                    rw [hasId_iff, ids_upd_servedAdd, ← hasId_iff]; exact hexc')
                  (by rw [ids_upd_servedAdd]; exact hnodup)]
              simp only [legit_upd_servedAdd, Mix.legit]
              ring
          | none =>
              rw [if_neg (by simp)]
              simp only [legitAccount, Tallies.sucSum, Tallies.failSum]
              rw [nextLegit_addNext _ _ _ (by
                    rw [hasId_iff, ids_upd_servedAdd, ← hasId_iff]; exact hexc')
                  (by rw [ids_upd_servedAdd]; exact hnodup)]
              simp only [legit_upd_servedAdd, Mix.legit]
              ring
      · rw [if_neg hr]
        have heq : dbRead * ((findNode st.nodes cid).map
            (fun c => c.cacheHitRate)).getD 0 = dbRead := by
          have h0 : dbRead - dbRead * ((findNode st.nodes cid).map
              (fun c => c.cacheHitRate)).getD 0 = 0 :=
            le_antisymm (not_lt.mp hr) hrem
          linarith
        simp only [legitAccount]
        rw [nextLegit_addNext _ _ _ (by
              rw [hasId_iff, ids_upd_servedAdd, ← hasId_iff]; exact hexc')
            (by rw [ids_upd_servedAdd]; exact hnodup)]
        simp only [legit_upd_servedAdd, Mix.legit]
        rw [heq]
        ring

end CloudSim

namespace CloudSim

theorem healthy_weights_pos (algo : LBAlgo) (healthy : List Node)
    (hne : healthy ≠ []) :
    0 < ((healthy.map (fun c => (c.id, lbWeight algo c))).map (fun t => t.2)).sum := by
  rw [List.map_map]
  apply List.sum_pos
  · intro x hx
    rcases List.mem_map.mp hx with ⟨c, _, rfl⟩
    exact lbWeight_pos algo c
  · simp only [ne_eq, List.map_eq_nil_iff]
    exact hne

theorem healthy_targets_exist (st : SimState) (otherChildren : List ℕ)
    (algo : LBAlgo) :
    ∀ u ∈ ((otherChildren.filterMap (findNode st.nodes)).filter
        (fun c => c.status == .active)).map (fun c => (c.id, lbWeight algo c)),
      ∃ n ∈ st.nodes, n.id = u.1 := by
  intro u hu
  rcases List.mem_map.mp hu with ⟨c, hc, rfl⟩
  have hc2 := List.mem_of_mem_filter hc
  rcases List.mem_filterMap.mp hc2 with ⟨tid, _, hfind⟩
  exact ⟨c, List.mem_of_find?_eq_some hfind, rfl⟩

theorem genericDynamic_balance (ctx : Ctx) (st : SimState) (node : Node)
    (otherChildren : List ℕ) (web dbRead dbWrite dbSearch atk : ℚ)
    (hnr : node.algorithm.getD .roundRobin ≠ .random)
    (hw : 0 ≤ web) (hd : 0 ≤ dbRead) (hdw : 0 ≤ dbWrite) (hds : 0 ≤ dbSearch)
    (ha : 0 ≤ atk)
    (hnodup : (st.nodes.map (fun n => n.id)).Nodup) :
    legitAccount (genericDynamic ctx st node otherChildren web dbRead dbWrite
        dbSearch atk) =
      legitAccount st + (web + dbRead + dbWrite + dbSearch) := by
  simp only [genericDynamic]
  by_cases hpos : 0 < web + dbRead + dbWrite + dbSearch + atk
  · rw [if_pos hpos]
    split
    · split
      · simp only [legitAccount, Tallies.sucSum, Tallies.failSum, Tallies.addFail]
        ring
      · rename_i hne2
        have hlb := lbDistribute_pos ctx (node.algorithm.getD .roundRobin) node
          _ web dbRead dbWrite dbSearch atk st hnr
          (healthy_weights_pos (node.algorithm.getD .roundRobin)
            ((otherChildren.filterMap (findNode st.nodes)).filter
              (fun c => c.status == .active)) hne2)
          (healthy_targets_exist st otherChildren (node.algorithm.getD .roundRobin))
          hnodup
        simp only [legitAccount]
        rw [hlb.2.1, hlb.2.2.1]
        ring
    · simp only [legitAccount, Tallies.sucSum, Tallies.failSum, Tallies.addFail]
      ring
  · rw [if_neg hpos]
    have hz : web + dbRead + dbWrite + dbSearch = 0 := by
      have := not_lt.mp hpos
      linarith
    rw [hz, add_zero]

theorem genericDynamic_atk (ctx : Ctx) (st : SimState) (node : Node)
    (otherChildren : List ℕ) (web dbRead dbWrite dbSearch atk : ℚ)
    (hnr : node.algorithm.getD .roundRobin ≠ .random)
    (hw : 0 ≤ web) (hd : 0 ≤ dbRead) (hdw : 0 ≤ dbWrite) (hds : 0 ≤ dbSearch)
    (ha : 0 ≤ atk)
    (hnodup : (st.nodes.map (fun n => n.id)).Nodup) :
    atkAccount (genericDynamic ctx st node otherChildren web dbRead dbWrite
        dbSearch atk) = atkAccount st + atk ∧
    (genericDynamic ctx st node otherChildren web dbRead dbWrite dbSearch
        atk).tallies.atkSuc = st.tallies.atkSuc ∧
    (genericDynamic ctx st node otherChildren web dbRead dbWrite dbSearch
        atk).codes.c403 = st.codes.c403 := by
  simp only [genericDynamic]
  by_cases hpos : 0 < web + dbRead + dbWrite + dbSearch + atk
  · rw [if_pos hpos]
    split
    · split
      · simp only [atkAccount, Tallies.addFail]
        exact ⟨by ring, by trivial, by trivial⟩
      · rename_i hne2
        have hlb := lbDistribute_pos ctx (node.algorithm.getD .roundRobin) node
          _ web dbRead dbWrite dbSearch atk st hnr
          (healthy_weights_pos (node.algorithm.getD .roundRobin)
            ((otherChildren.filterMap (findNode st.nodes)).filter
              (fun c => c.status == .active)) hne2)
          (healthy_targets_exist st otherChildren (node.algorithm.getD .roundRobin))
          hnodup
        simp only [atkAccount]
        rw [hlb.1, hlb.2.1, hlb.2.2.2]
        exact ⟨by ring, rfl, rfl⟩
    · simp only [atkAccount, Tallies.addFail]
      exact ⟨by ring, by trivial, by trivial⟩
  · rw [if_neg hpos]
    have hz : atk = 0 := by
      have := not_lt.mp hpos
      linarith
    rw [hz, add_zero]
    exact ⟨rfl, rfl, rfl⟩

theorem genericStatic_atk (st : SimState) (cdnChildren otherChildren : List ℕ)
    (stat : ℚ)
    (hex1 : ∀ t ∈ cdnChildren, ∃ n ∈ st.nodes, n.id = t)
    (hex2 : ∀ t ∈ otherChildren, ∃ n ∈ st.nodes, n.id = t)
    (hnodup : (st.nodes.map (fun n => n.id)).Nodup) :
    atkAccount (genericStatic st cdnChildren otherChildren stat) =
      atkAccount st ∧
    (genericStatic st cdnChildren otherChildren stat).tallies.atkSuc =
      st.tallies.atkSuc ∧
    (genericStatic st cdnChildren otherChildren stat).tallies.atkFail =
      st.tallies.atkFail ∧
    (genericStatic st cdnChildren otherChildren stat).codes.c403 =
      st.codes.c403 := by
  simp only [genericStatic]
  split
  · split
    · refine ⟨?_, rfl, rfl, rfl⟩
      simp only [atkAccount]
      rw [nextAtk_forwardAll _ _ (hex_map_pair hex1) hnodup]
      rw [List.map_map]
      have hz : ((fun t : ℕ × Mix => t.2.atk) ∘
          (fun tid => (tid, (⟨0, 0, 0, 0, stat * ((1:ℚ) / cdnChildren.length), 0⟩ : Mix)))) =
          (fun _ : ℕ => (0 : ℚ)) := by
        funext tid
        simp
      rw [hz, list_sum_map_const]
      ring
    · split
      · refine ⟨?_, rfl, rfl, rfl⟩
        simp only [atkAccount]
        rw [nextAtk_forwardAll _ _ (hex_map_pair hex2) hnodup]
        rw [List.map_map]
        have hz : ((fun t : ℕ × Mix => t.2.atk) ∘
            (fun tid => (tid, (⟨0, 0, 0, 0, stat * ((1:ℚ) / otherChildren.length), 0⟩ : Mix)))) =
            (fun _ : ℕ => (0 : ℚ)) := by
          funext tid
          simp
        rw [hz, list_sum_map_const]
        ring
      · exact ⟨rfl, rfl, rfl, rfl⟩
  · exact ⟨rfl, rfl, rfl, rfl⟩

theorem genericStatic_ids (st : SimState) (cdnChildren otherChildren : List ℕ)
    (stat : ℚ) :
    (genericStatic st cdnChildren otherChildren stat).nodes.map (fun n => n.id) =
      st.nodes.map (fun n => n.id) := by
  simp only [genericStatic]
  split
  · split
    · exact forwardAll_ids _ _
    · split
      · exact forwardAll_ids _ _
      · rfl
  · rfl

end CloudSim

namespace CloudSim

theorem routeCache_balance (st : SimState) (node : Node)
    (web dbRead dbWrite dbSearch stat atk : ℚ) :
    legitAccount (routeCache st node web dbRead dbWrite dbSearch stat atk) =
      legitAccount st + (web + dbRead + dbWrite + dbSearch + stat) := by
  simp only [routeCache, legitAccount, Tallies.sucSum, Tallies.failSum,
    legit_upd_cacheSet]
  ring

theorem routeDatabase_balance (st : SimState) (node : Node)
    (web dbRead dbWrite dbSearch stat atk : ℚ) :
    legitAccount (routeDatabase st node web dbRead dbWrite dbSearch stat atk) =
      legitAccount st + (web + dbRead + dbWrite + dbSearch + stat) := by
  simp only [routeDatabase]
  split <;>
    (simp only [legitAccount, Tallies.sucSum, Tallies.failSum]; ring)

theorem routeNoSql_balance (st : SimState) (node : Node)
    (web dbRead dbWrite dbSearch stat atk : ℚ) :
    legitAccount (routeNoSql st node web dbRead dbWrite dbSearch stat atk) =
      legitAccount st + (web + dbRead + dbWrite + dbSearch + stat) := by
  simp only [routeNoSql, legitAccount, Tallies.sucSum, Tallies.failSum]
  ring

theorem routeStorage_balance (st : SimState) (node : Node)
    (web dbRead dbWrite dbSearch stat atk : ℚ) :
    legitAccount (routeStorage st node web dbRead dbWrite dbSearch stat atk) =
      legitAccount st + (web + dbRead + dbWrite + dbSearch + stat) := by
  simp only [routeStorage, legitAccount, Tallies.sucSum, Tallies.failSum]
  ring

theorem routeCompute_balance (st : SimState) (node : Node)
    (web dbRead dbWrite dbSearch stat atk : ℚ)
    (hd : 0 ≤ dbRead) (hdw : 0 ≤ dbWrite) (hds : 0 ≤ dbSearch) (hs : 0 ≤ stat)
    (hrate : ∀ n ∈ st.nodes, n.cacheHitRate ≤ 1)
    (hnodup : (st.nodes.map (fun n => n.id)).Nodup) :
    legitAccount (routeCompute st node web dbRead dbWrite dbSearch stat atk) =
      legitAccount st + (web + dbRead + dbWrite + dbSearch + stat) := by
  have hexRep : ∀ t ∈ (childrenOf st.edges node.id).filter (childIsSql st.nodes .replica),
      ∃ n ∈ st.nodes, n.id = t :=
    fun t ht => childIsSql_exists (List.of_mem_filter ht)
  have hexSto : ∀ t ∈ (childrenOf st.edges node.id).filter (childIsKind st.nodes .storage),
      ∃ n ∈ st.nodes, n.id = t :=
    fun t ht => childIsKind_exists (List.of_mem_filter ht)
  have hexPrim : ∀ p, (childrenOf st.edges node.id).find? (childIsSql st.nodes .primary) =
      some p → ∃ n ∈ st.nodes, n.id = p :=
    fun p hp => find?_childIsSql_exists hp
  have hexNoSql : ∀ nid, (childrenOf st.edges node.id).find?
      (childIsKind st.nodes .databaseNoSql) = some nid → ∃ n ∈ st.nodes, n.id = nid :=
    fun nid hp => find?_childIsKind_exists hp
  have hexCache : ∀ cid, (childrenOf st.edges node.id).find?
      (childIsKind st.nodes .cache) = some cid → ∃ n ∈ st.nodes, n.id = cid :=
    fun cid hp => find?_childIsKind_exists hp
  have hexAtkT : ∀ t ∈ (childrenOf st.edges node.id).filter (childIsSql st.nodes .replica) ++
      ((childrenOf st.edges node.id).find? (childIsSql st.nodes .primary)).toList ++
      ((childrenOf st.edges node.id).find? (childIsKind st.nodes .databaseNoSql)).toList ++
      ((childrenOf st.edges node.id).find? (childIsKind st.nodes .cache)).toList,
      ∃ n ∈ st.nodes, n.id = t := by
    intro t ht
    simp only [List.mem_append] at ht
    rcases ht with ((hrep | hprim) | hnos) | hcac
    · exact hexRep t hrep
    · rcases Option.mem_toList.mp hprim with h
      exact hexPrim t h
    · rcases Option.mem_toList.mp hnos with h
      exact hexNoSql t h
    · rcases Option.mem_toList.mp hcac with h
      exact hexCache t h
  simp only [routeCompute]
  have idsA := computeAtk_ids { st with tallies := { st.tallies with
      webSuc := st.tallies.webSuc + web, atkSuc := st.tallies.atkSuc + atk } }
    ((childrenOf st.edges node.id).filter (childIsSql st.nodes .replica) ++
      ((childrenOf st.edges node.id).find? (childIsSql st.nodes .primary)).toList ++
      ((childrenOf st.edges node.id).find? (childIsKind st.nodes .databaseNoSql)).toList ++
      ((childrenOf st.edges node.id).find? (childIsKind st.nodes .cache)).toList) atk
  have rateA := computeAtk_rate { st with tallies := { st.tallies with
      webSuc := st.tallies.webSuc + web, atkSuc := st.tallies.atkSuc + atk } }
    ((childrenOf st.edges node.id).filter (childIsSql st.nodes .replica) ++
      ((childrenOf st.edges node.id).find? (childIsSql st.nodes .primary)).toList ++
      ((childrenOf st.edges node.id).find? (childIsKind st.nodes .databaseNoSql)).toList ++
      ((childrenOf st.edges node.id).find? (childIsKind st.nodes .cache)).toList) atk
  set stA := computeAtk { st with tallies := { st.tallies with
      webSuc := st.tallies.webSuc + web, atkSuc := st.tallies.atkSuc + atk } }
    ((childrenOf st.edges node.id).filter (childIsSql st.nodes .replica) ++
      ((childrenOf st.edges node.id).find? (childIsSql st.nodes .primary)).toList ++
      ((childrenOf st.edges node.id).find? (childIsKind st.nodes .databaseNoSql)).toList ++
      ((childrenOf st.edges node.id).find? (childIsKind st.nodes .cache)).toList) atk
    with hstA
  have idsS := computeSearch_ids stA
    ((childrenOf st.edges node.id).find? (childIsKind st.nodes .databaseNoSql))
    ((childrenOf st.edges node.id).filter (childIsSql st.nodes .replica))
    ((childrenOf st.edges node.id).find? (childIsSql st.nodes .primary)) dbSearch
  have rateS := computeSearch_rate stA
    ((childrenOf st.edges node.id).find? (childIsKind st.nodes .databaseNoSql))
    ((childrenOf st.edges node.id).filter (childIsSql st.nodes .replica))
    ((childrenOf st.edges node.id).find? (childIsSql st.nodes .primary)) dbSearch
  set stS := computeSearch stA
    ((childrenOf st.edges node.id).find? (childIsKind st.nodes .databaseNoSql))
    ((childrenOf st.edges node.id).filter (childIsSql st.nodes .replica))
    ((childrenOf st.edges node.id).find? (childIsSql st.nodes .primary)) dbSearch
    with hstS
  have idsW := computeWrite_ids stS
    ((childrenOf st.edges node.id).find? (childIsSql st.nodes .primary))
    ((childrenOf st.edges node.id).find? (childIsKind st.nodes .cache)) dbWrite
  have rateW := computeWrite_rate stS
    ((childrenOf st.edges node.id).find? (childIsSql st.nodes .primary))
    ((childrenOf st.edges node.id).find? (childIsKind st.nodes .cache)) dbWrite
  set stW := computeWrite stS
    ((childrenOf st.edges node.id).find? (childIsSql st.nodes .primary))
    ((childrenOf st.edges node.id).find? (childIsKind st.nodes .cache)) dbWrite
    with hstW
  have idsR := computeRead_ids stW
    ((childrenOf st.edges node.id).find? (childIsKind st.nodes .cache))
    ((childrenOf st.edges node.id).filter (childIsSql st.nodes .replica))
    ((childrenOf st.edges node.id).find? (childIsSql st.nodes .primary)) dbRead
  set stR := computeRead stW
    ((childrenOf st.edges node.id).find? (childIsKind st.nodes .cache))
    ((childrenOf st.edges node.id).filter (childIsSql st.nodes .replica))
    ((childrenOf st.edges node.id).find? (childIsSql st.nodes .primary)) dbRead
    with hstR
  have hidsAll_A : stA.nodes.map (fun n => n.id) = st.nodes.map (fun n => n.id) := idsA
  have hidsAll_S : stS.nodes.map (fun n => n.id) = st.nodes.map (fun n => n.id) := by
    rw [idsS, hidsAll_A]
  have hidsAll_W : stW.nodes.map (fun n => n.id) = st.nodes.map (fun n => n.id) := by
    rw [idsW, hidsAll_S]
  have hidsAll_R : stR.nodes.map (fun n => n.id) = st.nodes.map (fun n => n.id) := by
    rw [idsR, hidsAll_W]
  have hrate_W : ∀ n ∈ stW.nodes, n.cacheHitRate ≤ 1 :=
    all_proj_of_map_eq (fun x => x ≤ 1) (fun n => n.cacheHitRate)
      (by rw [rateW, rateS, rateA]) hrate
  have hnodup_A : (stA.nodes.map (fun n => n.id)).Nodup := by
    rw [hidsAll_A]; exact hnodup
  have hnodup_S : (stS.nodes.map (fun n => n.id)).Nodup := by
    rw [hidsAll_S]; exact hnodup
  have hnodup_W : (stW.nodes.map (fun n => n.id)).Nodup := by
    rw [hidsAll_W]; exact hnodup
  have hnodup_R : (stR.nodes.map (fun n => n.id)).Nodup := by
    rw [hidsAll_R]; exact hnodup
  have hmove : ∀ (L : List Node), L.map (fun n => n.id) = st.nodes.map (fun n => n.id) →
      ∀ tid, (∃ n ∈ st.nodes, n.id = tid) → ∃ n ∈ L, n.id = tid := by
    intro L hL tid hex
    rw [hasId_iff, hL, ← hasId_iff]
    exact hex
  rw [computeStatic_balance stR _ _ hs
      (fun t ht => hmove _ hidsAll_R t (hexSto t ht)) hnodup_R]
  rw [computeRead_balance stW _ _ _ _ hd hrate_W
      (fun cid hc => hmove _ hidsAll_W cid (hexCache cid hc))
      (fun t ht => hmove _ hidsAll_W t (hexRep t ht))
      (fun p hp => hmove _ hidsAll_W p (hexPrim p hp)) hnodup_W]
  rw [computeWrite_balance stS _ _ _ hdw
      (fun p hp => hmove _ hidsAll_S p (hexPrim p hp)) hnodup_S]
  rw [computeSearch_balance stA _ _ _ _ hds
      (fun nid hn => hmove _ hidsAll_A nid (hexNoSql nid hn))
      (fun t ht => hmove _ hidsAll_A t (hexRep t ht))
      (fun p hp => hmove _ hidsAll_A p (hexPrim p hp)) hnodup_A]
  rw [hstA, computeAtk_balance { st with tallies := { st.tallies with
      webSuc := st.tallies.webSuc + web, atkSuc := st.tallies.atkSuc + atk } } _ atk
      (fun t ht => hexAtkT t ht) hnodup]
  simp only [legitAccount, Tallies.sucSum, Tallies.failSum]
  ring

end CloudSim

namespace CloudSim

theorem computeCapacity_pos (t : ComputeTier) : 0 < computeCapacity t := by
  cases t <;> norm_num [computeCapacity]

theorem cdnCapacity_pos (t : CdnTier) : 0 < cdnCapacity t := by
  cases t <;> norm_num [cdnCapacity]

theorem capacityOf_pos (n : Node) : 0 < capacityOf n := by
  unfold capacityOf
  split
  · exact computeCapacity_pos _
  · split
    · apply mul_pos (computeCapacity_pos _)
      split
      · norm_num
      · rename_i h
        exact_mod_cast Nat.pos_of_ne_zero h
    · split
      · exact cdnCapacity_pos _
      · split
        · norm_num
        · split
          · norm_num
          · split
            · norm_num
            · split
              · norm_num
              · split
                · split <;> norm_num
                · split <;> norm_num

theorem effCapacity_pos (n : Node) : 0 < effCapacity n :=
  capacityOf_pos _

theorem attenuationFactor_nonneg (hs : Bool) (k : NodeKind) :
    0 ≤ attenuationFactor hs k := by
  unfold attenuationFactor
  split
  · split <;> norm_num
  · split <;> norm_num
  · norm_num

theorem weightedInput_nonneg (n : Node) (m : Mix)
    (hw : 0 ≤ m.web) (hd : 0 ≤ m.dbRead) (hdw : 0 ≤ m.dbWrite)
    (hds : 0 ≤ m.dbSearch) (hst : 0 ≤ m.stat) (ha : 0 ≤ m.atk) :
    0 ≤ weightedInputOf n m := by
  unfold weightedInputOf Mix.total
  have h1 : (0:ℚ) ≤ (if n.kind = .database ∧ n.dbRole = some .primary then
      m.dbWrite * writeLockingPenalty else m.dbWrite) := by
    split
    · unfold writeLockingPenalty
      positivity
    · exact hdw
  have h2 : (0:ℚ) ≤ m.atk * (if n.kind = .firewall ∨ n.kind = .waf then (1:ℚ) else 10) := by
    split <;> positivity
  simp only
  nlinarith [h1, h2]

theorem admitRatio_nonneg (ctx : Bool) (n : Node)
    (hnn : 0 ≤ (mixAfterSecurity ctx n).web ∧ 0 ≤ (mixAfterSecurity ctx n).dbRead ∧
      0 ≤ (mixAfterSecurity ctx n).dbWrite ∧ 0 ≤ (mixAfterSecurity ctx n).dbSearch ∧
      0 ≤ (mixAfterSecurity ctx n).stat ∧ 0 ≤ (mixAfterSecurity ctx n).atk) :
    0 ≤ admitRatio ctx n := by
  unfold admitRatio
  simp only
  rw [if_pos (effCapacity_pos n)]
  split
  · norm_num
  · rename_i hne
    have hwi : 0 ≤ weightedInputOf n (mixAfterSecurity ctx n) :=
      weightedInput_nonneg n _ hnn.1 hnn.2.1 hnn.2.2.1 hnn.2.2.2.1
        hnn.2.2.2.2.1 hnn.2.2.2.2.2
    have hwi' : 0 < weightedInputOf n (mixAfterSecurity ctx n) :=
      lt_of_le_of_ne hwi (Ne.symm hne)
    have : 0 < effCapacity n / weightedInputOf n (mixAfterSecurity ctx n) :=
      div_pos (effCapacity_pos n) hwi'
    exact le_min (by norm_num) (le_of_lt this)

theorem scaledNode_fields (n : Node) :
    (scaledNode n).id = n.id ∧ (scaledNode n).kind = n.kind ∧
    (scaledNode n).status = n.status ∧ (scaledNode n).algorithm = n.algorithm ∧
    (scaledNode n).az = n.az ∧ (scaledNode n).bufCur = n.bufCur ∧
    (scaledNode n).bufNext = n.bufNext ∧
    (scaledNode n).cacheHitRate = n.cacheHitRate := by
  refine ⟨?_, ?_, ?_, ?_, ?_, ?_, ?_, ?_⟩ <;>
    (unfold scaledNode asgScaled
     split
     · split
       · split
         · rfl
         · split <;> rfl
       · rfl
     · rfl)

theorem routeGeneric_balance (ctx : Ctx) (st : SimState) (node : Node)
    (web dbRead dbWrite dbSearch stat atk : ℚ)
    (hnr : node.algorithm.getD .roundRobin ≠ .random)
    (hw : 0 ≤ web) (hd : 0 ≤ dbRead) (hdw : 0 ≤ dbWrite) (hds : 0 ≤ dbSearch)
    (hs : 0 ≤ stat) (ha : 0 ≤ atk)
    (hchild : ∀ c ∈ childrenOf st.edges node.id, ∃ n ∈ st.nodes, n.id = c)
    (hnodup : (st.nodes.map (fun n => n.id)).Nodup) :
    legitAccount (routeGeneric ctx st node web dbRead dbWrite dbSearch stat atk) =
      legitAccount st + (web + dbRead + dbWrite + dbSearch + stat) := by
  have hexCdn : ∀ t ∈ (childrenOf st.edges node.id).filter (childIsKind st.nodes .cdn),
      ∃ n ∈ st.nodes, n.id = t :=
    fun t ht => hchild t (List.mem_of_mem_filter ht)
  have hexOther : ∀ t ∈ (childrenOf st.edges node.id).filter
      (fun tid => !(childIsKind st.nodes .cdn tid)), ∃ n ∈ st.nodes, n.id = t :=
    fun t ht => hchild t (List.mem_of_mem_filter ht)
  simp only [routeGeneric]
  have hidsStat := genericStatic_ids st
    ((childrenOf st.edges node.id).filter (childIsKind st.nodes .cdn))
    ((childrenOf st.edges node.id).filter (fun tid => !(childIsKind st.nodes .cdn tid)))
    stat
  rw [genericDynamic_balance ctx _ node _ web dbRead dbWrite dbSearch atk hnr
      hw hd hdw hds ha (by rw [hidsStat]; exact hnodup)]
  rw [genericStatic_balance st _ _ stat hs hexCdn hexOther hnodup]
  ring

theorem routeNode_balance (ctx : Ctx) (st : SimState) (node : Node)
    (web dbRead dbWrite dbSearch stat atk : ℚ)
    (hnr : ¬(isGenericKind node.kind = true ∧
      node.algorithm.getD .roundRobin = .random))
    (hw : 0 ≤ web) (hd : 0 ≤ dbRead) (hdw : 0 ≤ dbWrite) (hds : 0 ≤ dbSearch)
    (hs : 0 ≤ stat) (ha : 0 ≤ atk)
    (hrate : ∀ n ∈ st.nodes, n.cacheHitRate ≤ 1)
    (hchild : ∀ c ∈ childrenOf st.edges node.id, ∃ n ∈ st.nodes, n.id = c)
    (hnodup : (st.nodes.map (fun n => n.id)).Nodup) :
    legitAccount (routeNode ctx st node web dbRead dbWrite dbSearch stat atk) =
      legitAccount st + (web + dbRead + dbWrite + dbSearch + stat) := by
  have hgen : ∀ hk : isGenericKind node.kind = true,
      node.algorithm.getD .roundRobin ≠ .random :=
    fun hk hr => hnr ⟨hk, hr⟩
  unfold routeNode
  cases hk : node.kind with
  | cdn => exact routeCdn_balance st node web dbRead dbWrite dbSearch stat atk hnodup hs
  | compute =>
      exact routeCompute_balance st node web dbRead dbWrite dbSearch stat atk
        hd hdw hds hs hrate hnodup
  | cache => exact routeCache_balance st node web dbRead dbWrite dbSearch stat atk
  | database => exact routeDatabase_balance st node web dbRead dbWrite dbSearch stat atk
  | databaseNoSql => exact routeNoSql_balance st node web dbRead dbWrite dbSearch stat atk
  | storage => exact routeStorage_balance st node web dbRead dbWrite dbSearch stat atk
  | internet =>
      exact routeGeneric_balance ctx st node web dbRead dbWrite dbSearch stat atk
        (hgen (by rw [hk]; rfl)) hw hd hdw hds hs ha hchild hnodup
  | waf =>
      exact routeGeneric_balance ctx st node web dbRead dbWrite dbSearch stat atk
        (hgen (by rw [hk]; rfl)) hw hd hdw hds hs ha hchild hnodup
  | firewall =>
      exact routeGeneric_balance ctx st node web dbRead dbWrite dbSearch stat atk
        (hgen (by rw [hk]; rfl)) hw hd hdw hds hs ha hchild hnodup
  | loadBalancer =>
      exact routeGeneric_balance ctx st node web dbRead dbWrite dbSearch stat atk
        (hgen (by rw [hk]; rfl)) hw hd hdw hds hs ha hchild hnodup
  | apiGateway =>
      exact routeGeneric_balance ctx st node web dbRead dbWrite dbSearch stat atk
        (hgen (by rw [hk]; rfl)) hw hd hdw hds hs ha hchild hnodup
  | autoscalingGroup =>
      exact routeGeneric_balance ctx st node web dbRead dbWrite dbSearch stat atk
        (hgen (by rw [hk]; rfl)) hw hd hdw hds hs ha hchild hnodup

end CloudSim

namespace CloudSim

theorem exists_id_of_map_eq {nodes nodes' : List Node}
    (h : nodes'.map (fun n => n.id) = nodes.map (fun n => n.id))
    {c : ℕ} (hex : ∃ n ∈ nodes, n.id = c) : ∃ n ∈ nodes', n.id = c := by
  rw [hasId_iff] at hex ⊢
  rw [h]
  exact hex

theorem failSum_addFail (t : Tallies) (m : Mix) :
    (t.addFail m).failSum = t.failSum + m.legit := by
  simp only [Tallies.addFail, Tallies.failSum, Mix.legit]
  ring

theorem sucSum_addFail (t : Tallies) (m : Mix) :
    (t.addFail m).sucSum = t.sucSum := rfl

/-- C1 (amended): one active node's settlement step conserves legitimate
traffic at the node level: every unit of legitimate volume in the node's
current buffer ends the step either in a success tally, in a failure
tally, or in some node's next-round buffer.  Hypotheses: the node is in
the table with unique ids, its children exist, cache hit rates are
sane, the node is active and its post-filter volume is above the 0.1
skip threshold, its buffer is nonnegative, and the node is not a
Random-algorithm generic router (whose jitter genuinely breaks
conservation, see the counterexample). -/
theorem node_legit_balance (ctx : Ctx) (st : SimState) (node : Node)
    (hmem : node ∈ st.nodes)
    (hnodup : (st.nodes.map (fun n => n.id)).Nodup)
    (hchild : ∀ c ∈ childrenOf st.edges node.id, ∃ n ∈ st.nodes, n.id = c)
    (hrate : ∀ n ∈ st.nodes, n.cacheHitRate ≤ 1)
    (hactive : node.status = .active)
    (hvol : 1/10 < (mixAfterSecurity ctx.hasShield node).total)
    (hnn : 0 ≤ node.bufCur.web ∧ 0 ≤ node.bufCur.dbRead ∧ 0 ≤ node.bufCur.dbWrite ∧
      0 ≤ node.bufCur.dbSearch ∧ 0 ≤ node.bufCur.stat ∧ 0 ≤ node.bufCur.atk)
    (hnr : ¬(isGenericKind node.kind = true ∧
      node.algorithm.getD .roundRobin = .random)) :
    legitAccount (processNode ctx st node) = legitAccount st + node.bufCur.legit := by
  have hfields := scaledNode_fields node
  have hr0 : 0 ≤ admitRatio ctx.hasShield node :=
    admitRatio_nonneg ctx.hasShield node
      ⟨hnn.1, hnn.2.1, hnn.2.2.1, hnn.2.2.2.1, hnn.2.2.2.2.1,
        mul_nonneg hnn.2.2.2.2.2 (attenuationFactor_nonneg _ _)⟩
  have hr1 : admitRatio ctx.hasShield node ≤ 1 := admitRatio_le_one _ _
  have hmatch : ∀ n ∈ updateNode st.nodes node.id
      (fun k => { k with bufCur := mixAfterSecurity ctx.hasShield node }),
      n.id = node.id → n.bufNext = node.bufNext ∧ n.cacheHitRate = node.cacheHitRate := by
    intro n hn hid
    rcases mem_updateNode hn with ⟨o, ho, rfl⟩ | hn'
    · have ho' : o = node := eq_of_mem_id hmem hnodup ho hid
      rw [ho']
      exact ⟨rfl, rfl⟩
    · have hne : n = node := eq_of_mem_id hmem hnodup hn' hid
      rw [hne]
      exact ⟨rfl, rfl⟩
  simp only [processNode]
  rw [if_neg (fun h => h hactive), if_neg (not_le.mpr hvol)]
  by_cases hratio : admitRatio ctx.hasShield node < 1
  · rw [if_pos hratio]
    rw [routeNode_balance ctx]
    · simp only [legitAccount, sucSum_addFail, failSum_addFail]
      rw [legit_upd_const]
      · rw [legit_upd_bufCur]
        simp only [mixAfterSecurity, Mix.scale, Mix.legit]
        ring
      · intro n hn hid
        exact hfields.2.2.2.2.2.2.1.trans ((hmatch n hn hid).1).symm
    · intro hgen
      refine hnr ⟨?_, ?_⟩
      · rw [← hfields.2.1]
        exact hgen.1
      · rw [← hfields.2.2.2.1]
        exact hgen.2
    · exact mul_nonneg hnn.1 hr0
    · exact mul_nonneg hnn.2.1 hr0
    · exact mul_nonneg hnn.2.2.1 hr0
    · exact mul_nonneg hnn.2.2.2.1 hr0
    · exact mul_nonneg hnn.2.2.2.2.1 hr0
    · exact mul_nonneg (mul_nonneg hnn.2.2.2.2.2 (attenuationFactor_nonneg _ _)) hr0
    · refine all_proj_of_map_eq (fun x => x ≤ 1) (fun n => n.cacheHitRate) ?_ hrate
      rw [proj_upd_const (fun n => n.cacheHitRate)]
      · exact rate_upd_bufCur st.nodes node.id _
      · intro n hn hid
        exact hfields.2.2.2.2.2.2.2.trans ((hmatch n hn hid).2).symm
    · intro c hc
      refine exists_id_of_map_eq ?_ (hchild c ?_)
      · rw [proj_upd_const (fun n => n.id)]
        · exact ids_upd_bufCur st.nodes node.id _
        · intro n hn hid
          exact hfields.1.trans hid.symm
      · have hcid : (scaledNode node).id = node.id := hfields.1
        rw [← hcid]
        exact hc
    · rw [proj_upd_const (fun n => n.id)]
      · rw [ids_upd_bufCur]
        exact hnodup
      · intro n hn hid
        exact hfields.1.trans hid.symm
  · rw [if_neg hratio]
    have hreq : admitRatio ctx.hasShield node = 1 :=
      le_antisymm hr1 (not_lt.mp hratio)
    rw [routeNode_balance ctx]
    · simp only [legitAccount]
      rw [legit_upd_const]
      · rw [legit_upd_bufCur]
        rw [hreq]
        simp only [mixAfterSecurity, Mix.legit]
        ring
      · intro n hn hid
        exact hfields.2.2.2.2.2.2.1.trans ((hmatch n hn hid).1).symm
    · intro hgen
      refine hnr ⟨?_, ?_⟩
      · rw [← hfields.2.1]
        exact hgen.1
      · rw [← hfields.2.2.2.1]
        exact hgen.2
    · exact mul_nonneg hnn.1 hr0
    · exact mul_nonneg hnn.2.1 hr0
    · exact mul_nonneg hnn.2.2.1 hr0
    · exact mul_nonneg hnn.2.2.2.1 hr0
    · exact mul_nonneg hnn.2.2.2.2.1 hr0
    · exact mul_nonneg (mul_nonneg hnn.2.2.2.2.2 (attenuationFactor_nonneg _ _)) hr0
    · refine all_proj_of_map_eq (fun x => x ≤ 1) (fun n => n.cacheHitRate) ?_ hrate
      rw [proj_upd_const (fun n => n.cacheHitRate)]
      · exact rate_upd_bufCur st.nodes node.id _
      · intro n hn hid
        exact hfields.2.2.2.2.2.2.2.trans ((hmatch n hn hid).2).symm
    · intro c hc
      refine exists_id_of_map_eq ?_ (hchild c ?_)
      · rw [proj_upd_const (fun n => n.id)]
        · exact ids_upd_bufCur st.nodes node.id _
        · intro n hn hid
          exact hfields.1.trans hid.symm
      · have hcid : (scaledNode node).id = node.id := hfields.1
        rw [← hcid]
        exact hc
    · rw [proj_upd_const (fun n => n.id)]
      · rw [ids_upd_bufCur]
        exact hnodup
      · intro n hn hid
        exact hfields.1.trans hid.symm

end CloudSim

namespace CloudSim

theorem node_legit_balance_witness :
    let node : Node := { freshNode .compute 100 (some .t3) 7 with
      bufCur := ⟨1, 1, 1, 1, 1, 1⟩ }
    legitAccount (processNode ctxPlain (simOf [node] []) node) =
      legitAccount (simOf [node] []) + node.bufCur.legit := by
  intro node
  exact node_legit_balance ctxPlain (simOf [node] []) node
    (List.mem_singleton.mpr rfl)
    (by with_unfolding_all decide)
    (by intro c hc; simp [childrenOf, simOf] at hc)
    (by
      intro n hn
      simp only [simOf, List.mem_singleton] at hn
      subst hn
      with_unfolding_all decide)
    rfl
    (by with_unfolding_all decide)
    (by with_unfolding_all decide)
    (by with_unfolding_all decide)

end CloudSim

namespace CloudSim

theorem computeAtk_lat (st : SimState) (targets : List ℕ) (atk : ℚ) :
    (computeAtk st targets atk).latAcc = st.latAcc ∧
    (computeAtk st targets atk).latCount = st.latCount := by
  refine ⟨?_, ?_⟩ <;>
    (first
      | (simp only [computeAtk]
         repeat' split
         all_goals rfl))

theorem computeSearch_lat (st : SimState) (noSqlNode : Option ℕ)
    (sqlReplicas : List ℕ) (sqlPrimary : Option ℕ) (dbSearch : ℚ) :
    (computeSearch st noSqlNode sqlReplicas sqlPrimary dbSearch).latAcc = st.latAcc ∧
    (computeSearch st noSqlNode sqlReplicas sqlPrimary dbSearch).latCount = st.latCount := by
  refine ⟨?_, ?_⟩ <;>
    (first
      | (simp only [computeSearch]
         repeat' split
         all_goals rfl))

theorem computeWrite_lat (st : SimState) (sqlPrimary cacheNode : Option ℕ)
    (dbWrite : ℚ) :
    (computeWrite st sqlPrimary cacheNode dbWrite).latAcc = st.latAcc ∧
    (computeWrite st sqlPrimary cacheNode dbWrite).latCount = st.latCount := by
  refine ⟨?_, ?_⟩ <;>
    (first
      | (simp only [computeWrite]
         repeat' split
         all_goals rfl))

theorem computeRead_lat (st : SimState) (cacheNode : Option ℕ)
    (sqlReplicas : List ℕ) (sqlPrimary : Option ℕ) (dbRead : ℚ) :
    (computeRead st cacheNode sqlReplicas sqlPrimary dbRead).latAcc = st.latAcc ∧
    (computeRead st cacheNode sqlReplicas sqlPrimary dbRead).latCount = st.latCount := by
  refine ⟨?_, ?_⟩ <;>
    (first
      | (simp only [computeRead]
         repeat' split
         all_goals rfl))

theorem computeStatic_lat (st : SimState) (storageNodes : List ℕ) (stat : ℚ) :
    (computeStatic st storageNodes stat).latAcc = st.latAcc ∧
    (computeStatic st storageNodes stat).latCount = st.latCount := by
  refine ⟨?_, ?_⟩ <;>
    (first
      | (simp only [computeStatic]
         repeat' split
         all_goals rfl))

theorem genericStatic_lat (st : SimState) (cdnChildren otherChildren : List ℕ)
    (stat : ℚ) :
    (genericStatic st cdnChildren otherChildren stat).latAcc = st.latAcc ∧
    (genericStatic st cdnChildren otherChildren stat).latCount = st.latCount := by
  refine ⟨?_, ?_⟩ <;>
    (first
      | (simp only [genericStatic]
         repeat' split
         all_goals rfl))

theorem genericStatic_az (st : SimState) (cdnChildren otherChildren : List ℕ)
    (stat : ℚ) :
    (genericStatic st cdnChildren otherChildren stat).nodes.map (fun n => n.az) =
      st.nodes.map (fun n => n.az) := by
  simp only [genericStatic]
  repeat' split
  all_goals first | rfl | exact az_forwardAll _ _

theorem routeCache_lat (st : SimState) (node : Node)
    (web dbRead dbWrite dbSearch stat atk : ℚ) :
    (routeCache st node web dbRead dbWrite dbSearch stat atk).latAcc = st.latAcc ∧
    (routeCache st node web dbRead dbWrite dbSearch stat atk).latCount = st.latCount := by
  exact ⟨rfl, rfl⟩

theorem routeDatabase_lat (st : SimState) (node : Node)
    (web dbRead dbWrite dbSearch stat atk : ℚ) :
    (routeDatabase st node web dbRead dbWrite dbSearch stat atk).latAcc = st.latAcc ∧
    (routeDatabase st node web dbRead dbWrite dbSearch stat atk).latCount = st.latCount := by
  refine ⟨?_, ?_⟩ <;>
    (first
      | (simp only [routeDatabase]
         repeat' split
         all_goals rfl))

theorem routeNoSql_lat (st : SimState) (node : Node)
    (web dbRead dbWrite dbSearch stat atk : ℚ) :
    (routeNoSql st node web dbRead dbWrite dbSearch stat atk).latAcc = st.latAcc ∧
    (routeNoSql st node web dbRead dbWrite dbSearch stat atk).latCount = st.latCount := by
  refine ⟨?_, ?_⟩ <;>
    (first
      | (simp only [routeNoSql]
         repeat' split
         all_goals rfl))

theorem routeStorage_lat (st : SimState) (node : Node)
    (web dbRead dbWrite dbSearch stat atk : ℚ) :
    (routeStorage st node web dbRead dbWrite dbSearch stat atk).latAcc = st.latAcc ∧
    (routeStorage st node web dbRead dbWrite dbSearch stat atk).latCount = st.latCount := by
  refine ⟨?_, ?_⟩ <;>
    (first
      | (simp only [routeStorage]
         repeat' split
         all_goals rfl))

theorem lbStep_latCount (ctx : Ctx) (algo : LBAlgo) (node : Node)
    (tw td web dbRead dbWrite dbSearch atk : ℚ) (s : SimState) (kt : ℕ × ℕ × ℚ) :
    (lbStep ctx algo node tw td web dbRead dbWrite dbSearch atk s kt).latCount =
      s.latCount := by
  simp only [lbStep]
  repeat' split
  all_goals rfl

theorem foldl_lbStep_latCount (ctx : Ctx) (algo : LBAlgo) (node : Node)
    (tw td web dbRead dbWrite dbSearch atk : ℚ) (l : List (ℕ × ℕ × ℚ)) (s : SimState) :
    (l.foldl (lbStep ctx algo node tw td web dbRead dbWrite dbSearch atk) s).latCount =
      s.latCount := by
  induction l generalizing s with
  | nil => rfl
  | cons a t ih =>
      rw [List.foldl_cons, ih]
      exact lbStep_latCount ctx algo node tw td web dbRead dbWrite dbSearch atk s a

theorem lbDistribute_latCount (ctx : Ctx) (algo : LBAlgo) (node : Node)
    (targets : List (ℕ × ℚ)) (web dbRead dbWrite dbSearch atk : ℚ) (st : SimState) :
    (lbDistribute ctx algo node targets web dbRead dbWrite dbSearch atk st).latCount =
      st.latCount := by
  simp only [lbDistribute]
  split
  · exact foldl_lbStep_latCount ctx algo node _ _ web dbRead dbWrite dbSearch atk _ st
  · rfl

theorem genericDynamic_latCount (ctx : Ctx) (st : SimState) (node : Node)
    (otherChildren : List ℕ) (web dbRead dbWrite dbSearch atk : ℚ) :
    (genericDynamic ctx st node otherChildren web dbRead dbWrite dbSearch atk).latCount =
      st.latCount := by
  simp only [genericDynamic]
  repeat' split
  all_goals first | rfl | exact lbDistribute_latCount ctx _ node _ web dbRead dbWrite dbSearch atk st

theorem genericDynamic_latAcc_of_az (ctx : Ctx) (st : SimState) (node : Node)
    (otherChildren : List ℕ) (web dbRead dbWrite dbSearch atk : ℚ)
    (haz : ∀ n ∈ st.nodes, n.az = node.az) :
    (genericDynamic ctx st node otherChildren web dbRead dbWrite dbSearch atk).latAcc =
      st.latAcc := by
  simp only [genericDynamic]
  repeat' split
  all_goals first
    | rfl
    | exact lbDistribute_latAcc_of_az ctx _ node _ web dbRead dbWrite dbSearch atk st haz

theorem routeCdn_lat_of_az (st : SimState) (node : Node)
    (web dbRead dbWrite dbSearch stat atk : ℚ)
    (haz : ∀ n ∈ st.nodes, n.az = node.az) :
    (routeCdn st node web dbRead dbWrite dbSearch stat atk).latAcc = st.latAcc ∧
    (routeCdn st node web dbRead dbWrite dbSearch stat atk).latCount = st.latCount := by
  simp only [routeCdn]
  split
  · exact ⟨rfl, rfl⟩
  · rename_i sid hf
    split
    · split
      · rename_i t hft
        have htaz : t.az = node.az := by
          refine all_proj_of_map_eq (fun a => a = node.az) (fun n => n.az) ?_ haz t
            (List.mem_of_find?_eq_some hft)
          rw [az_addNext_map, az_upd_cdnServed, az_addNext_map, az_upd_flag]
        rw [if_neg (not_not_intro htaz)]
        exact ⟨rfl, rfl⟩
      · exact ⟨rfl, rfl⟩
    · exact ⟨rfl, rfl⟩

theorem routeCompute_lat (st : SimState) (node : Node)
    (web dbRead dbWrite dbSearch stat atk : ℚ) :
    (routeCompute st node web dbRead dbWrite dbSearch stat atk).latAcc = st.latAcc ∧
    (routeCompute st node web dbRead dbWrite dbSearch stat atk).latCount = st.latCount := by
  simp only [routeCompute]
  refine ⟨?_, ?_⟩
  · rw [(computeStatic_lat _ _ _).1, (computeRead_lat _ _ _ _ _).1,
      (computeWrite_lat _ _ _ _).1, (computeSearch_lat _ _ _ _ _).1,
      (computeAtk_lat _ _ _).1]
  · rw [(computeStatic_lat _ _ _).2, (computeRead_lat _ _ _ _ _).2,
      (computeWrite_lat _ _ _ _).2, (computeSearch_lat _ _ _ _ _).2,
      (computeAtk_lat _ _ _).2]

theorem routeGeneric_lat_of_az (ctx : Ctx) (st : SimState) (node : Node)
    (web dbRead dbWrite dbSearch stat atk : ℚ)
    (haz : ∀ n ∈ st.nodes, n.az = node.az) :
    (routeGeneric ctx st node web dbRead dbWrite dbSearch stat atk).latAcc = st.latAcc ∧
    (routeGeneric ctx st node web dbRead dbWrite dbSearch stat atk).latCount = st.latCount := by
  simp only [routeGeneric]
  have haz2 : ∀ n ∈ (genericStatic st
      ((childrenOf st.edges node.id).filter (childIsKind st.nodes .cdn))
      ((childrenOf st.edges node.id).filter (fun tid => !(childIsKind st.nodes .cdn tid)))
      stat).nodes, n.az = node.az :=
    all_proj_of_map_eq (fun a => a = node.az) (fun n => n.az)
      (genericStatic_az st _ _ stat) haz
  constructor
  · rw [genericDynamic_latAcc_of_az ctx _ node _ web dbRead dbWrite dbSearch atk haz2]
    exact (genericStatic_lat st _ _ stat).1
  · rw [genericDynamic_latCount ctx _ node _ web dbRead dbWrite dbSearch atk]
    exact (genericStatic_lat st _ _ stat).2

theorem routeNode_lat_of_az (ctx : Ctx) (st : SimState) (node : Node)
    (web dbRead dbWrite dbSearch stat atk : ℚ)
    (haz : ∀ n ∈ st.nodes, n.az = node.az) :
    (routeNode ctx st node web dbRead dbWrite dbSearch stat atk).latAcc = st.latAcc ∧
    (routeNode ctx st node web dbRead dbWrite dbSearch stat atk).latCount = st.latCount := by
  unfold routeNode
  cases hk : node.kind <;>
    first
      | exact routeCdn_lat_of_az st node web dbRead dbWrite dbSearch stat atk haz
      | exact routeCompute_lat st node web dbRead dbWrite dbSearch stat atk
      | exact routeCache_lat st node web dbRead dbWrite dbSearch stat atk
      | exact routeDatabase_lat st node web dbRead dbWrite dbSearch stat atk
      | exact routeNoSql_lat st node web dbRead dbWrite dbSearch stat atk
      | exact routeStorage_lat st node web dbRead dbWrite dbSearch stat atk
      | exact routeGeneric_lat_of_az ctx st node web dbRead dbWrite dbSearch stat atk haz

end CloudSim

namespace CloudSim

/-- C4 (amended): in one settlement step of an active, above-threshold
node, the tick's latency accumulator gains the node's heuristic latency
at its new load if and only if the node had processed requests BEFORE
this step (node.processedReqs is checked before it is incremented), and
the latency sample count gains one under the same condition.  The
all-same-az hypothesis switches off the separate cross-az latency
surcharges of the routing phase. -/
theorem latency_contribution_round (ctx : Ctx) (st : SimState) (node : Node)
    (hactive : node.status = .active)
    (hvol : 1/10 < (mixAfterSecurity ctx.hasShield node).total)
    (haz : ∀ n ∈ st.nodes, n.az = node.az) :
    (processNode ctx st node).latAcc =
      st.latAcc + (if 0 < node.processedReqs
        then latencyOf (newLoadOf ctx.hasShield node) else 0) ∧
    (processNode ctx st node).latCount =
      st.latCount + (if 0 < node.processedReqs then 1 else 0) := by
  have hfields := scaledNode_fields node
  have haz1 : ∀ m ∈ updateNode st.nodes node.id
      (fun k => { k with bufCur := mixAfterSecurity ctx.hasShield node }),
      m.az = node.az :=
    all_proj_of_map_eq (fun a => a = node.az) (fun n => n.az)
      (az_upd_bufCur st.nodes node.id _) haz
  simp only [processNode]
  rw [if_neg (fun h => h hactive), if_neg (not_le.mpr hvol)]
  by_cases hratio : admitRatio ctx.hasShield node < 1
  · rw [if_pos hratio]
    constructor
    · rw [(routeNode_lat_of_az _ _ _ _ _ _ _ _ _ ?_).1]
      · show (if 0 < node.processedReqs then
            st.latAcc + latencyOf (newLoadOf ctx.hasShield node) else st.latAcc) =
          st.latAcc + (if 0 < node.processedReqs
            then latencyOf (newLoadOf ctx.hasShield node) else 0)
        by_cases hp : 0 < node.processedReqs
        · rw [if_pos hp, if_pos hp]
        · rw [if_neg hp, if_neg hp, add_zero]
      · intro n hn
        rcases mem_updateNode hn with ⟨m, hm, rfl⟩ | hn'
        · rfl
        · exact (haz1 n hn').trans hfields.2.2.2.2.1.symm
    · rw [(routeNode_lat_of_az _ _ _ _ _ _ _ _ _ ?_).2]
      · show (if 0 < node.processedReqs then st.latCount + 1 else st.latCount) =
          st.latCount + (if 0 < node.processedReqs then 1 else 0)
        by_cases hp : 0 < node.processedReqs
        · rw [if_pos hp, if_pos hp]
        · rw [if_neg hp, if_neg hp, add_zero]
      · intro n hn
        rcases mem_updateNode hn with ⟨m, hm, rfl⟩ | hn'
        · rfl
        · exact (haz1 n hn').trans hfields.2.2.2.2.1.symm
  · rw [if_neg hratio]
    constructor
    · rw [(routeNode_lat_of_az _ _ _ _ _ _ _ _ _ ?_).1]
      · show (if 0 < node.processedReqs then
            st.latAcc + latencyOf (newLoadOf ctx.hasShield node) else st.latAcc) =
          st.latAcc + (if 0 < node.processedReqs
            then latencyOf (newLoadOf ctx.hasShield node) else 0)
        by_cases hp : 0 < node.processedReqs
        · rw [if_pos hp, if_pos hp]
        · rw [if_neg hp, if_neg hp, add_zero]
      · intro n hn
        rcases mem_updateNode hn with ⟨m, hm, rfl⟩ | hn'
        · rfl
        · exact (haz1 n hn').trans hfields.2.2.2.2.1.symm
    · rw [(routeNode_lat_of_az _ _ _ _ _ _ _ _ _ ?_).2]
      · show (if 0 < node.processedReqs then st.latCount + 1 else st.latCount) =
          st.latCount + (if 0 < node.processedReqs then 1 else 0)
        by_cases hp : 0 < node.processedReqs
        · rw [if_pos hp, if_pos hp]
        · rw [if_neg hp, if_neg hp, add_zero]
      · intro n hn
        rcases mem_updateNode hn with ⟨m, hm, rfl⟩ | hn'
        · rfl
        · exact (haz1 n hn').trans hfields.2.2.2.2.1.symm

theorem latency_contribution_round_witness :
    let node : Node := { freshNode .internet 100 none 3 with
      bufCur := ⟨2, 1, 1, 1, 1, 0⟩, processedReqs := 5 }
    (processNode ctxPlain (simOf [node] []) node).latAcc =
      (simOf [node] []).latAcc + (if 0 < node.processedReqs
        then latencyOf (newLoadOf false node) else 0) ∧
    (processNode ctxPlain (simOf [node] []) node).latCount =
      (simOf [node] []).latCount + (if 0 < node.processedReqs then 1 else 0) := by
  intro node
  exact latency_contribution_round ctxPlain (simOf [node] []) node rfl
    (by with_unfolding_all decide)
    (by
      intro n hn
      simp only [simOf, List.mem_singleton] at hn
      subst hn
      rfl)

end CloudSim

namespace CloudSim


theorem processNode_active (ctx : Ctx) (st : SimState) (node : Node)
    (hactive : node.status = .active)
    (hvol : 1/10 < (mixAfterSecurity ctx.hasShield node).total) :
    processNode ctx st node =
      routeNode ctx (procMid ctx st node) (procNode3 ctx.hasShield node)
        ((mixAfterSecurity ctx.hasShield node).web * admitRatio ctx.hasShield node)
        ((mixAfterSecurity ctx.hasShield node).dbRead * admitRatio ctx.hasShield node)
        ((mixAfterSecurity ctx.hasShield node).dbWrite * admitRatio ctx.hasShield node)
        ((mixAfterSecurity ctx.hasShield node).dbSearch * admitRatio ctx.hasShield node)
        ((mixAfterSecurity ctx.hasShield node).stat * admitRatio ctx.hasShield node)
        ((mixAfterSecurity ctx.hasShield node).atk * admitRatio ctx.hasShield node) := by
  simp only [processNode, procMid, procNode3]
  rw [if_neg (fun h => h hactive), if_neg (not_le.mpr hvol)]

theorem routeNode_generic (ctx : Ctx) (st : SimState) (node : Node)
    (web dbRead dbWrite dbSearch stat atk : ℚ)
    (hk : node.kind = .firewall ∨ node.kind = .waf) :
    routeNode ctx st node web dbRead dbWrite dbSearch stat atk =
      routeGeneric ctx st node web dbRead dbWrite dbSearch stat atk := by
  unfold routeNode
  rcases hk with hk | hk <;> rw [hk]

theorem attenuationFactor_le_one (hs : Bool) (k : NodeKind) :
    attenuationFactor hs k ≤ 1 := by
  unfold attenuationFactor
  split
  · split <;> norm_num
  · split <;> norm_num
  · norm_num

theorem routeGeneric_atk (ctx : Ctx) (st : SimState) (node : Node)
    (web dbRead dbWrite dbSearch stat atk : ℚ)
    (hnr : node.algorithm.getD .roundRobin ≠ .random)
    (hw : 0 ≤ web) (hd : 0 ≤ dbRead) (hdw : 0 ≤ dbWrite) (hds : 0 ≤ dbSearch)
    (ha : 0 ≤ atk)
    (hchild : ∀ c ∈ childrenOf st.edges node.id, ∃ n ∈ st.nodes, n.id = c)
    (hnodup : (st.nodes.map (fun n => n.id)).Nodup) :
    atkAccount (routeGeneric ctx st node web dbRead dbWrite dbSearch stat atk) =
      atkAccount st + atk ∧
    (routeGeneric ctx st node web dbRead dbWrite dbSearch stat atk).tallies.atkSuc =
      st.tallies.atkSuc ∧
    (routeGeneric ctx st node web dbRead dbWrite dbSearch stat atk).codes.c403 =
      st.codes.c403 := by
  have hexCdn : ∀ t ∈ (childrenOf st.edges node.id).filter (childIsKind st.nodes .cdn),
      ∃ n ∈ st.nodes, n.id = t :=
    fun t ht => hchild t (List.mem_of_mem_filter ht)
  have hexOther : ∀ t ∈ (childrenOf st.edges node.id).filter
      (fun tid => !(childIsKind st.nodes .cdn tid)), ∃ n ∈ st.nodes, n.id = t :=
    fun t ht => hchild t (List.mem_of_mem_filter ht)
  simp only [routeGeneric]
  have hids := genericStatic_ids st
    ((childrenOf st.edges node.id).filter (childIsKind st.nodes .cdn))
    ((childrenOf st.edges node.id).filter (fun tid => !(childIsKind st.nodes .cdn tid)))
    stat
  have hgs := genericStatic_atk st
    ((childrenOf st.edges node.id).filter (childIsKind st.nodes .cdn))
    ((childrenOf st.edges node.id).filter (fun tid => !(childIsKind st.nodes .cdn tid)))
    stat hexCdn hexOther hnodup
  have hgd := genericDynamic_atk ctx _ node
    ((childrenOf st.edges node.id).filter (fun tid => !(childIsKind st.nodes .cdn tid)))
    web dbRead dbWrite dbSearch atk hnr hw hd hdw hds ha
    (by rw [hids]; exact hnodup)
  refine ⟨hgd.1.trans ?_, hgd.2.1.trans hgs.2.1, hgd.2.2.trans hgs.2.2.2⟩
  rw [hgs.1]

end CloudSim

namespace CloudSim

/-- C10: at an active Firewall or WAF node above the skip threshold, the
attack volume attenuated by the security filter is added to the 403
response-code counter and to nothing else: the Attack
successful tally is untouched, and the Attack success/fail tallies plus
the attack volume still in flight grow by exactly the SURVIVING attack
volume, so the blocked share never reaches any per-type counter. -/
theorem security_filter_accounting (ctx : Ctx) (st : SimState) (node : Node)
    (hkind : node.kind = .firewall ∨ node.kind = .waf)
    (hmem : node ∈ st.nodes)
    (hnodup : (st.nodes.map (fun n => n.id)).Nodup)
    (hchild : ∀ c ∈ childrenOf st.edges node.id, ∃ n ∈ st.nodes, n.id = c)
    (hactive : node.status = .active)
    (hvol : 1/10 < (mixAfterSecurity ctx.hasShield node).total)
    (hnn : 0 ≤ node.bufCur.web ∧ 0 ≤ node.bufCur.dbRead ∧ 0 ≤ node.bufCur.dbWrite ∧
      0 ≤ node.bufCur.dbSearch ∧ 0 ≤ node.bufCur.stat ∧ 0 ≤ node.bufCur.atk)
    (hnr : node.algorithm.getD .roundRobin ≠ .random) :
    (processNode ctx st node).codes.c403 =
      st.codes.c403 + (node.bufCur.atk - (mixAfterSecurity ctx.hasShield node).atk) ∧
    (processNode ctx st node).tallies.atkSuc = st.tallies.atkSuc ∧
    atkAccount (processNode ctx st node) =
      atkAccount st + (mixAfterSecurity ctx.hasShield node).atk := by
  have hfields := scaledNode_fields node
  have hr0 : 0 ≤ admitRatio ctx.hasShield node :=
    admitRatio_nonneg ctx.hasShield node
      ⟨hnn.1, hnn.2.1, hnn.2.2.1, hnn.2.2.2.1, hnn.2.2.2.2.1,
        mul_nonneg hnn.2.2.2.2.2 (attenuationFactor_nonneg _ _)⟩
  have hr1 : admitRatio ctx.hasShield node ≤ 1 := admitRatio_le_one _ _
  have hb0 : 0 ≤ node.bufCur.atk - (mixAfterSecurity ctx.hasShield node).atk := by
    have hle : node.bufCur.atk * attenuationFactor ctx.hasShield node.kind ≤
        node.bufCur.atk * 1 :=
      mul_le_mul_of_nonneg_left (attenuationFactor_le_one _ _) hnn.2.2.2.2.2
    have hx : (mixAfterSecurity ctx.hasShield node).atk =
        node.bufCur.atk * attenuationFactor ctx.hasShield node.kind := rfl
    rw [hx]
    linarith
  have hmatch : ∀ n ∈ updateNode st.nodes node.id
      (fun k => { k with bufCur := mixAfterSecurity ctx.hasShield node }),
      n.id = node.id → n.bufNext = node.bufNext := by
    intro n hn hid
    rcases mem_updateNode hn with ⟨o, ho, rfl⟩ | hn'
    · have ho' : o = node := eq_of_mem_id hmem hnodup ho hid
      rw [ho']
    · have hne : n = node := eq_of_mem_id hmem hnodup hn' hid
      rw [hne]
  rw [processNode_active ctx st node hactive hvol]
  have hk3 : (procNode3 ctx.hasShield node).kind = .firewall ∨
      (procNode3 ctx.hasShield node).kind = .waf := by
    rcases hkind with hk | hk
    · exact Or.inl (hfields.2.1.trans hk)
    · exact Or.inr (hfields.2.1.trans hk)
  rw [routeNode_generic _ _ _ _ _ _ _ _ _ hk3]
  have hnr3 : (procNode3 ctx.hasShield node).algorithm.getD .roundRobin ≠ .random := by
    have halg : (procNode3 ctx.hasShield node).algorithm = node.algorithm :=
      hfields.2.2.2.1
    rw [halg]
    exact hnr
  have hmidN : (procMid ctx st node).nodes =
      updateNode (updateNode st.nodes node.id
        (fun n => { n with bufCur := mixAfterSecurity ctx.hasShield node }))
        node.id (fun _ => procNode3 ctx.hasShield node) := by
    simp only [procMid]
    split <;> rfl
  have hmidE : (procMid ctx st node).edges = st.edges := by
    simp only [procMid]
    split <;> rfl
  have hids3 : (procMid ctx st node).nodes.map (fun n => n.id) =
      st.nodes.map (fun n => n.id) := by
    rw [hmidN, proj_upd_const (fun n => n.id)]
    · exact ids_upd_bufCur st.nodes node.id _
    · intro m hm hid
      exact hfields.1.trans hid.symm
  have hnodup3 : ((procMid ctx st node).nodes.map (fun n => n.id)).Nodup := by
    rw [hids3]
    exact hnodup
  have hchild3 : ∀ c ∈ childrenOf (procMid ctx st node).edges
      (procNode3 ctx.hasShield node).id,
      ∃ n ∈ (procMid ctx st node).nodes, n.id = c := by
    intro c hc
    rw [hmidE] at hc
    have hid3 : (procNode3 ctx.hasShield node).id = node.id := hfields.1
    rw [hid3] at hc
    exact exists_id_of_map_eq hids3 (hchild c hc)
  obtain ⟨hA, hS, hC⟩ := routeGeneric_atk ctx (procMid ctx st node)
    (procNode3 ctx.hasShield node)
    ((mixAfterSecurity ctx.hasShield node).web * admitRatio ctx.hasShield node)
    ((mixAfterSecurity ctx.hasShield node).dbRead * admitRatio ctx.hasShield node)
    ((mixAfterSecurity ctx.hasShield node).dbWrite * admitRatio ctx.hasShield node)
    ((mixAfterSecurity ctx.hasShield node).dbSearch * admitRatio ctx.hasShield node)
    ((mixAfterSecurity ctx.hasShield node).stat * admitRatio ctx.hasShield node)
    ((mixAfterSecurity ctx.hasShield node).atk * admitRatio ctx.hasShield node)
    hnr3
    (mul_nonneg hnn.1 hr0)
    (mul_nonneg hnn.2.1 hr0)
    (mul_nonneg hnn.2.2.1 hr0)
    (mul_nonneg hnn.2.2.2.1 hr0)
    (mul_nonneg (mul_nonneg hnn.2.2.2.2.2 (attenuationFactor_nonneg _ _)) hr0)
    hchild3 hnodup3
  have hsuc : (procMid ctx st node).tallies.atkSuc = st.tallies.atkSuc := by
    simp only [procMid]
    repeat' split
    all_goals rfl
  have hc403 : (procMid ctx st node).codes.c403 =
      st.codes.c403 + (node.bufCur.atk - (mixAfterSecurity ctx.hasShield node).atk) := by
    by_cases hbl : 0 < node.bufCur.atk - (mixAfterSecurity ctx.hasShield node).atk
    · simp only [procMid]
      rw [if_pos hbl]
      repeat' split
      all_goals rfl
    · have hbe : node.bufCur.atk - (mixAfterSecurity ctx.hasShield node).atk = 0 :=
        le_antisymm (not_lt.mp hbl) hb0
      simp only [procMid]
      rw [if_neg hbl, hbe, add_zero]
      repeat' split
      all_goals rfl
  have hacc : atkAccount (procMid ctx st node) =
      atkAccount st + (if admitRatio ctx.hasShield node < 1 then
        (mixAfterSecurity ctx.hasShield node).atk *
          (1 - admitRatio ctx.hasShield node) else 0) := by
    simp only [atkAccount, procMid]
    by_cases hratio : admitRatio ctx.hasShield node < 1
    · rw [if_pos hratio, if_pos hratio]
      rw [atk_upd_const]
      · rw [atk_upd_bufCur]
        simp only [Tallies.addFail, Mix.scale]
        ring
      · intro m hm hid
        exact hfields.2.2.2.2.2.2.1.trans (hmatch m hm hid).symm
    · rw [if_neg hratio, if_neg hratio]
      rw [atk_upd_const]
      · rw [atk_upd_bufCur]
        ring
      · intro m hm hid
        exact hfields.2.2.2.2.2.2.1.trans (hmatch m hm hid).symm
  refine ⟨hC.trans hc403, hS.trans hsuc, hA.trans ?_⟩
  rw [hacc]
  by_cases hratio : admitRatio ctx.hasShield node < 1
  · rw [if_pos hratio]
    ring
  · have hre : admitRatio ctx.hasShield node = 1 :=
      le_antisymm hr1 (not_lt.mp hratio)
    rw [if_neg hratio, hre]
    ring

theorem security_filter_accounting_witness :
    let fw : Node := { freshNode .firewall 100 none 1 with
      bufCur := ⟨1, 1, 1, 1, 1, 100⟩ }
    let web : Node := freshNode .compute 100 (some .t3) 2
    let st : SimState := simOf [fw, web] [(1, 2)]
    (processNode ctxPlain st fw).codes.c403 =
      st.codes.c403 + (fw.bufCur.atk - (mixAfterSecurity false fw).atk) ∧
    (processNode ctxPlain st fw).tallies.atkSuc = st.tallies.atkSuc ∧
    atkAccount (processNode ctxPlain st fw) =
      atkAccount st + (mixAfterSecurity false fw).atk := by
  intro fw web st
  exact security_filter_accounting ctxPlain st fw (Or.inl rfl)
    (by with_unfolding_all decide)
    (by with_unfolding_all decide)
    (by with_unfolding_all decide)
    rfl
    (by with_unfolding_all decide)
    (by with_unfolding_all decide)
    (by with_unfolding_all decide)

end CloudSim
